import Mathlib

/-!
Verification development for the El Topo collision pipeline and mesh pincher
(`eltopo3d/collisionpipeline.cpp`, `eltopo3d/meshpincher.cpp`).

The C++ sources are shallowly embedded: machine doubles become exact rationals
(`ℚ`), `std::vector` becomes `List`, and the numerical kernels that live in
`common/` (narrow-phase CCD, proximity queries, vector norms) — which are not
part of the sources under verification — appear either as oracle parameters or
as definitions modelled from the specification, each marked as such.
-/

set_option autoImplicit false

namespace Eltopo

/-- Exact-rational stand-in for `Vec3d`. -/
structure Vec3q where
  x : ℚ
  y : ℚ
  z : ℚ
deriving DecidableEq

instance : Add Vec3q := ⟨fun a b => ⟨a.x + b.x, a.y + b.y, a.z + b.z⟩⟩

instance : Sub Vec3q := ⟨fun a b => ⟨a.x - b.x, a.y - b.y, a.z - b.z⟩⟩

instance : Neg Vec3q := ⟨fun a => ⟨-a.x, -a.y, -a.z⟩⟩

instance : HSMul ℚ Vec3q Vec3q := ⟨fun c a => ⟨c * a.x, c * a.y, c * a.z⟩⟩

/-- Zero vector. -/
def v3zero : Vec3q := ⟨0, 0, 0⟩

/-- Dot product over `ℚ` (the `dot` of `common/vec.h`). -/
def dot3 (a b : Vec3q) : ℚ := a.x * b.x + a.y * b.y + a.z * b.z

/-- A collision candidate, `Vec3st(a, b, kind)` in the source:
`kind = 0` is point–triangle (`a` = triangle index, `b` = vertex index),
`kind = 1` is edge–edge. -/
structure Vec3st where
  a : Nat
  b : Nat
  kind : Nat
deriving DecidableEq

/-- A triangle as a vertex index triple (`Vec3st` used as a triangle in the
source; renamed here to keep candidates and triangles apart). -/
structure Tri3 where
  v0 : Nat
  v1 : Nat
  v2 : Nat
deriving DecidableEq

/-- A mesh edge as a vertex index pair (`Vec2st`). -/
structure Edge2 where
  e0 : Nat
  e1 : Nat
deriving DecidableEq

/-- The `Collision` record of `collisionpipeline.h`. -/
structure Collision where
  m_is_edge_edge : Bool
  m_vertex_indices : Nat × Nat × Nat × Nat
  m_normal : Vec3q
  m_barycentric_coordinates : ℚ × ℚ × ℚ × ℚ
  m_relative_displacement : ℚ
deriving DecidableEq

/-- The `ProcessCollisionStatus` record. -/
structure ProcessCollisionStatus where
  collision_found : Bool
  overflow : Bool
  all_candidates_processed : Bool
deriving DecidableEq

/-- `static const double IMPULSE_MULTIPLIER = 1.0;` -/
def IMPULSE_MULTIPLIER : ℚ := 1

/-- `static const size_t MAX_CANDIDATES = 1000000;` -/
def MAX_CANDIDATES : Nat := 1000000

/-- Oracles standing for the parts of the pipeline that live outside
`collisionpipeline.cpp` or that mutate the surface through it:
`detect` is the pair `detect_segment_segment_collision` /
`detect_point_triangle_collision` dispatched on the candidate kind;
`resolve` is `apply_edge_edge_impulse` / `apply_triangle_point_impulse`
(taking the impulse magnitude and `dt`); `upd` is the concatenation of the
four `add_point_update_candidates` calls made after an impulse. -/
structure CcdOracles (σ : Type) where
  detect : σ → Vec3st → Option Collision
  resolve : σ → Collision → ℚ → ℚ → σ
  upd : σ → Collision → List Vec3st

/-- One execution of the body of the `while` loop in
`CollisionPipeline::process_collision_candidates` (lines 687–749): pop was
already done by the caller; detect the candidate, and on a collision apply
`impulse = IMPULSE_MULTIPLIER * (0 - rel_disp/dt)`, set `collision_found`,
set `overflow` when the new-candidate list already holds more than
`MAX_CANDIDATES` entries, and only if no overflow (and collecting) append the
update candidates of the four collision vertices. -/
def pcc_body {σ : Type} (o : CcdOracles σ) (dt : ℚ) (add_to_new_candidates : Bool)
    (surf : σ) (c : Vec3st) (new_candidates : List Vec3st)
    (st : ProcessCollisionStatus) : σ × List Vec3st × ProcessCollisionStatus :=
  match o.detect surf c with
  | none => (surf, new_candidates, st)
  | some collision =>
      let relvel := collision.m_relative_displacement / dt
      let impulse := IMPULSE_MULTIPLIER * (0 - relvel)
      let surf' := o.resolve surf collision impulse dt
      let st' := { st with collision_found := true }
      let st'' :=
        if new_candidates.length > MAX_CANDIDATES then { st' with overflow := true } else st'
      let new' :=
        if !st''.overflow && add_to_new_candidates then
          new_candidates ++ o.upd surf' collision
        else new_candidates
      (surf', new', st'')

/-- The `while ( false == candidates.empty() && i++ < max_iteration )` loop of
`process_collision_candidates`, for the calls where the candidate list and the
new-candidate list are distinct vectors.  The first `Nat` argument is the
number of loop iterations still permitted (`max_iteration - i`); the final
`Nat` is the count `i` of iterations executed so far. -/
def pcc_loop {σ : Type} (o : CcdOracles σ) (dt : ℚ) (add_to_new_candidates : Bool) :
    Nat → σ → List Vec3st → List Vec3st → ProcessCollisionStatus → Nat →
    σ × List Vec3st × List Vec3st × ProcessCollisionStatus × Nat
  | 0, surf, candidates, new_candidates, st, i => (surf, candidates, new_candidates, st, i)
  | _ + 1, surf, [], new_candidates, st, i => (surf, [], new_candidates, st, i)
  | fuel + 1, surf, c :: rest, new_candidates, st, i =>
      let r := pcc_body o dt add_to_new_candidates surf c new_candidates st
      pcc_loop o dt add_to_new_candidates fuel r.1 rest r.2.1 r.2.2 (i + 1)

/-- `CollisionPipeline::process_collision_candidates` (lines 675–758) for a
call where `candidates` and `new_candidates` are distinct vectors: run the
loop for at most `5 * candidates.size()` iterations, then record whether all
candidates were consumed.  Returns
(surface, leftover candidates, new candidates, status, iterations executed). -/
def process_collision_candidates {σ : Type} (o : CcdOracles σ) (dt : ℚ)
    (add_to_new_candidates : Bool) (surf : σ) (candidates new_candidates : List Vec3st)
    (st : ProcessCollisionStatus) :
    σ × List Vec3st × List Vec3st × ProcessCollisionStatus × Nat :=
  let max_iteration := 5 * candidates.length
  let r := pcc_loop o dt add_to_new_candidates max_iteration surf candidates new_candidates st 0
  (r.1, r.2.1, r.2.2.1, { r.2.2.2.1 with all_candidates_processed := r.2.1.isEmpty }, r.2.2.2.2)

/-- The same loop for the wind-down call in `handle_collisions` (line 1049),
where the same vector is passed as both `candidates` and `new_candidates`:
popping, the overflow size check and the appends all act on one list. -/
def pcc_loop_aliased {σ : Type} (o : CcdOracles σ) (dt : ℚ) (add_to_new_candidates : Bool) :
    Nat → σ → List Vec3st → ProcessCollisionStatus → Nat →
    σ × List Vec3st × ProcessCollisionStatus × Nat
  | 0, surf, candidates, st, i => (surf, candidates, st, i)
  | _ + 1, surf, [], st, i => (surf, [], st, i)
  | fuel + 1, surf, c :: rest, st, i =>
      let r := pcc_body o dt add_to_new_candidates surf c rest st
      pcc_loop_aliased o dt add_to_new_candidates fuel r.1 r.2.1 r.2.2 (i + 1)

/-- `process_collision_candidates` for the aliased wind-down call: the
iteration cap is still `5 *` the length of the list at entry, even though the
list may grow while it is being consumed. -/
def process_collision_candidates_aliased {σ : Type} (o : CcdOracles σ) (dt : ℚ)
    (add_to_new_candidates : Bool) (surf : σ) (candidates : List Vec3st)
    (st : ProcessCollisionStatus) :
    σ × List Vec3st × ProcessCollisionStatus × Nat :=
  let max_iteration := 5 * candidates.length
  let r := pcc_loop_aliased o dt add_to_new_candidates max_iteration surf candidates st 0
  (r.1, r.2.1, { r.2.2.1 with all_candidates_processed := r.2.1.isEmpty }, r.2.2.2)

/-- `CollisionCandidateSetLT` (lines 57–80): lexicographic order on the three
candidate fields. -/
def CollisionCandidateSetLT (a b : Vec3st) : Bool :=
  if a.a < b.a then true
  else if a.a = b.a then
    if a.b < b.b then true
    else if a.b = b.b then decide (a.kind < b.kind)
    else false
  else false

/-- `std::unique`: drop every element equal to its immediate predecessor. -/
def unique_consecutive : List Vec3st → List Vec3st
  | [] => []
  | [c] => [c]
  | c :: c' :: rest =>
      if c = c' then unique_consecutive (c :: rest)
      else c :: unique_consecutive (c' :: rest)

/-- The sort-plus-unique step of `handle_collisions` (lines 1042–1044). -/
def sort_unique (l : List Vec3st) : List Vec3st :=
  unique_consecutive (l.mergeSort fun a b => !CollisionCandidateSetLT b a)

/-- One of the per-primitive candidate-generation passes
(`dynamic_point_vs_solid_triangle_collisions`,
`dynamic_triangle_vs_all_point_collisions`,
`dynamic_edge_vs_all_edge_collisions`, lines 860–949): `skip` is the
`*_is_solid` test that `continue`s past solid primitives, `gen` stands for the
broad-phase candidate gathering (`add_point_candidates` /
`add_triangle_candidates` / `add_edge_candidates`) for one primitive. -/
structure PhaseGen (σ : Type) where
  skip : Nat → Bool
  gen : σ → Nat → List Vec3st
  ids : List Nat

/-- Run one dynamic phase: for each primitive id (unless solid), build its
local candidate list and feed it to `process_collision_candidates`, threading
the surface, the shared update-candidate list and the shared status. -/
def dynamic_phase {σ : Type} (o : CcdOracles σ) (dt : ℚ) (collect : Bool) (p : PhaseGen σ)
    (surf : σ) (ucc : List Vec3st) (st : ProcessCollisionStatus) :
    σ × List Vec3st × ProcessCollisionStatus :=
  p.ids.foldl
    (fun acc i =>
      if p.skip i then acc
      else
        let r := process_collision_candidates o dt collect acc.1 (p.gen acc.1 i) acc.2.1 acc.2.2
        (r.1, r.2.2.1, r.2.2.2.1))
    (surf, ucc, st)

/-- The single collision pass of `CollisionPipeline::handle_collisions`
(lines 973–1039, with `MAX_PASS = 1` so `collect_candidates` is true): the
three dynamic phases run in sequence on a status initialised to all-false.
Since the body of `process_collision_candidates` only ever raises
`collision_found`, the final status field equals the `collision_found |= …`
accumulator of the source. -/
def hc_pass {σ : Type} (o : CcdOracles σ) (dt : ℚ) (pv pt pe : PhaseGen σ) (surf : σ) :
    σ × List Vec3st × ProcessCollisionStatus :=
  let st0 : ProcessCollisionStatus := ⟨false, false, false⟩
  let r1 := dynamic_phase o dt true pv surf [] st0
  let r2 := dynamic_phase o dt true pt r1.1 r1.2.1 r1.2.2
  dynamic_phase o dt true pe r2.1 r2.2.1 r2.2.2

/-- The wind-down step of `handle_collisions` (lines 1041–1049): de-duplicate
the accumulated update candidates and process them with the aliased loop and a
fresh status whose `overflow` is initialised to false. -/
def hc_wind {σ : Type} (o : CcdOracles σ) (dt : ℚ) (surf : σ) (ucc : List Vec3st) :
    σ × List Vec3st × ProcessCollisionStatus × Nat :=
  process_collision_candidates_aliased o dt true surf (sort_unique ucc) ⟨false, false, false⟩

/-- `CollisionPipeline::handle_collisions` (lines 958–1069): run the single
pass; return `false` early on overflow, `true` early when no collision was
found; otherwise wind down the deduplicated update candidates and return
`ok = all_candidates_processed && not overflow`. -/
def handle_collisions {σ : Type} (o : CcdOracles σ) (dt : ℚ) (pv pt pe : PhaseGen σ)
    (surf : σ) : σ × Bool :=
  let p := hc_pass o dt pv pt pe surf
  if p.2.2.overflow then (p.1, false)
  else if !p.2.2.collision_found then (p.1, true)
  else
    let w := hc_wind o dt p.1 p.2.1
    (w.1, w.2.2.1.all_candidates_processed && !w.2.2.1.overflow)

/-- A concrete edge-edge candidate used in overflow scenarios. -/
def cexCand : Vec3st := ⟨0, 0, 1⟩

/-- A concrete collision returned by the overflow-scenario detector. -/
def cexColl : Collision := ⟨true, (0, 1, 2, 3), v3zero, (0, 0, 0, 0), 0⟩

/-- A new-candidate list just past the `MAX_CANDIDATES` bound. -/
def bigList : List Vec3st := List.replicate 1000001 cexCand

/-- Overflow-scenario oracles over a surface that simply counts applied
impulses: every candidate collides, and candidate regeneration after the very
first impulse floods the new-candidate list past the bound. -/
def cexOracles : CcdOracles Nat :=
  ⟨fun _ _ => some cexColl, fun s _ _ _ => s + 1, fun s _ => if s = 1 then bigList else []⟩

/-- Overflow-scenario phase: one dynamic vertex whose broad-phase query yields
two candidates. -/
def cexPhaseV : PhaseGen Nat := ⟨fun _ => false, fun _ _ => [cexCand, cexCand], [0]⟩

/-- A phase with no primitives at all. -/
def cexPhaseNil : PhaseGen Nat := ⟨fun _ => false, fun _ _ => [], []⟩

/-- The slice of `DynamicSurface` state the pipeline reads and writes:
current positions, predicted positions, velocities and masses, all indexed by
vertex.  (The class itself lives in `dynamicsurface.cpp`, outside the sources
under verification; this record is modelled from the specification of C7.) -/
structure DynSurface where
  positions : List Vec3q
  newpositions : List Vec3q
  velocities : List Vec3q
  masses : List ℚ
deriving DecidableEq

/-- `DynamicSurface::get_position`. -/
def get_position (s : DynSurface) (v : Nat) : Vec3q := s.positions.getD v v3zero

/-- `DynamicSurface::get_newposition`. -/
def get_newposition (s : DynSurface) (v : Nat) : Vec3q := s.newpositions.getD v v3zero

/-- Modelled from the spec: a solid edge is one whose two endpoints are both
solid (`DynamicSurface::edge_is_solid` is outside the sources under
verification; `vsolid` stands for the per-vertex solidity flag). -/
def edge_is_solid (vsolid : Nat → Bool) (e : Edge2) : Bool := vsolid e.e0 && vsolid e.e1

/-- Modelled from the spec: a solid triangle is one whose three vertices are
all solid. -/
def triangle_is_solid (vsolid : Nat → Bool) (t : Tri3) : Bool :=
  vsolid t.v0 && vsolid t.v1 && vsolid t.v2

/-- The in-place `if (e[1] < e[0]) swap(e[0], e[1])` of the detector. -/
def sortEdge (e : Edge2) : Edge2 := if e.e1 < e.e0 then ⟨e.e1, e.e0⟩ else e

/-- `sort_triangle` (ascending vertex indices). -/
def sort_triangle (t : Tri3) : Tri3 :=
  if t.v0 ≤ t.v1 then
    if t.v1 ≤ t.v2 then t
    else if t.v0 ≤ t.v2 then ⟨t.v0, t.v2, t.v1⟩
    else ⟨t.v2, t.v0, t.v1⟩
  else
    if t.v0 ≤ t.v2 then ⟨t.v1, t.v0, t.v2⟩
    else if t.v1 ≤ t.v2 then ⟨t.v1, t.v2, t.v0⟩
    else ⟨t.v2, t.v1, t.v0⟩

/-- Oracle type for `segment_segment_collision` (exact CCD, `common/`):
given start and end positions of the four vertices, optionally return
`(s0, s2, normal, relative displacement)`. -/
def SegSegCcd : Type :=
  Vec3q → Vec3q → Vec3q → Vec3q → Vec3q → Vec3q → Vec3q → Vec3q →
    Option (ℚ × ℚ × Vec3q × ℚ)

/-- Oracle type for `point_triangle_collision` (exact CCD, `common/`):
given start and end positions of the point and the three (sorted) triangle
vertices, optionally return `(s1, s2, s3, normal, relative displacement)`. -/
def PointTriCcd : Type :=
  Vec3q → Vec3q → Vec3q → Vec3q → Vec3q → Vec3q → Vec3q → Vec3q →
    Option (ℚ × ℚ × ℚ × Vec3q × ℚ)

/-- `CollisionPipeline::detect_segment_segment_collision` (lines 585–630):
reject degenerate edges, edges sharing a vertex, and solid–solid pairs, then
hand the continuous trajectories to the narrow phase. -/
def detect_segment_segment_collision (edges : List Edge2) (vsolid : Nat → Bool)
    (ccd : SegSegCcd) (s : DynSurface) (candidate : Vec3st) : Option Collision :=
  let e0 := edges.getD candidate.a ⟨0, 0⟩
  let e1 := edges.getD candidate.b ⟨0, 0⟩
  if e0.e0 = e0.e1 then none
  else if e1.e0 = e1.e1 then none
  else if e0.e0 = e1.e0 ∨ e0.e0 = e1.e1 ∨ e0.e1 = e1.e0 ∨ e0.e1 = e1.e1 then none
  else
    let e0s := sortEdge e0
    let e1s := sortEdge e1
    if edge_is_solid vsolid e0s && edge_is_solid vsolid e1s then none
    else
      let a := e0s.e0
      let b := e0s.e1
      let c := e1s.e0
      let d := e1s.e1
      match ccd (get_position s a) (get_newposition s a) (get_position s b)
          (get_newposition s b) (get_position s c) (get_newposition s c)
          (get_position s d) (get_newposition s d) with
      | some (s0, s2, normal, rel_disp) =>
          some ⟨true, (a, b, c, d), normal, (s0, 1 - s0, s2, 1 - s2), rel_disp⟩
      | none => none

/-- `CollisionPipeline::detect_point_triangle_collision` (lines 635–671):
reject a vertex incident to the triangle and solid–solid pairs, then hand the
continuous trajectories (with the triangle sorted) to the narrow phase. -/
def detect_point_triangle_collision (tris : List Tri3) (vsolid : Nat → Bool)
    (ccd : PointTriCcd) (s : DynSurface) (candidate : Vec3st) : Option Collision :=
  let tri := tris.getD candidate.a ⟨0, 0, 0⟩
  let v := candidate.b
  if tri.v0 = v ∨ tri.v1 = v ∨ tri.v2 = v then none
  else if triangle_is_solid vsolid tri && vsolid v then none
  else
    let sorted_tri := sort_triangle tri
    match ccd (get_position s v) (get_newposition s v)
        (get_position s sorted_tri.v0) (get_newposition s sorted_tri.v0)
        (get_position s sorted_tri.v1) (get_newposition s sorted_tri.v1)
        (get_position s sorted_tri.v2) (get_newposition s sorted_tri.v2) with
    | some (s1, s2, s3, normal, rel_disp) =>
        some ⟨false, (v, sorted_tri.v0, sorted_tri.v1, sorted_tri.v2), normal,
          (1, s1, s2, s3), rel_disp⟩
    | none => none

/-- `CollisionPipeline::add_point_update_candidates` (lines 310–333): during
the sequential-impulses phase, regenerate candidates around a vertex — unless
the vertex is solid, in which case nothing at all is generated.  The three
`add_*_candidates` broad-phase helpers and the incidence maps appear as
oracles. -/
def add_point_update_candidates (vsolid : Nat → Bool)
    (point_candidates triangle_candidates edge_candidates : Nat → List Vec3st)
    (v2t v2e : Nat → List Nat) (v : Nat) : List Vec3st :=
  if vsolid v then []
  else
    point_candidates v ++
      ((v2t v).foldl (fun acc t => acc ++ triangle_candidates t) []) ++
      ((v2e v).foldl (fun acc e => acc ++ edge_candidates e) [])

/-- `DynamicSurface` velocity lookup (`m_velocities`). -/
def get_velocity (s : DynSurface) (v : Nat) : Vec3q := s.velocities.getD v v3zero

/-- Oracle type for `check_edge_edge_proximity` (`common/collisionqueries.cpp`):
from the four current positions, return
(distance, `s0`, `s2`, contact normal). -/
def EdgeEdgeProx : Type := Vec3q → Vec3q → Vec3q → Vec3q → ℚ × ℚ × ℚ × Vec3q

/-- Oracle type for `check_point_triangle_proximity`: from the four current
positions, return (distance, `s1`, `s2`, `s3`, contact normal). -/
def PointTriProx : Type := Vec3q → Vec3q → Vec3q → Vec3q → ℚ × ℚ × ℚ × ℚ × Vec3q

/-- `static const double k = 10.0;` of `process_proximity_candidates`. -/
def proximity_k : ℚ := 10

/-- The edge–edge branch of the body of
`CollisionPipeline::process_proximity_candidates` (lines 356–420) for one
candidate: returns the `Collision` record and the impulse magnitude passed to
`apply_edge_edge_impulse` when an impulse is applied, `none` when the
candidate is skipped. -/
def process_proximity_edge_edge (eps dt : ℚ) (edges : List Edge2) (prox : EdgeEdgeProx)
    (s : DynSurface) (candidate : Vec3st) : Option (Collision × ℚ) :=
  let e0 := edges.getD candidate.a ⟨0, 0⟩
  let e1 := edges.getD candidate.b ⟨0, 0⟩
  if e0.e0 = e0.e1 then none
  else if e1.e0 = e1.e1 then none
  else if e0.e0 ≠ e1.e0 ∧ e0.e0 ≠ e1.e1 ∧ e0.e1 ≠ e1.e0 ∧ e0.e1 ≠ e1.e1 then
    let q := prox (get_position s e0.e0) (get_position s e0.e1)
      (get_position s e1.e0) (get_position s e1.e1)
    let distance := q.1
    let s0 := q.2.1
    let s2 := q.2.2.1
    let normal := q.2.2.2
    if distance < eps then
      let relvel := dot3 normal
        (s0 • get_velocity s e0.e0 + (1 - s0) • get_velocity s e0.e1 -
          s2 • get_velocity s e1.e0 - (1 - s2) • get_velocity s e1.e1)
      let diff := s0 • get_position s e0.e0 + (1 - s0) • get_position s e0.e1 -
        s2 • get_position s e1.e0 - (1 - s2) • get_position s e1.e1
      if dot3 normal diff < 0 then none
      else
        let d := eps - distance
        if relvel > 1 / 10 * d / dt then none
        else
          let impulse1 := max 0 (1 / 10 * d / dt - relvel)
          let impulse2 := dt * proximity_k * d
          let impulse := min impulse1 impulse2
          some (⟨true, (e0.e0, e0.e1, e1.e0, e1.e1), normal,
            (s0, 1 - s0, s2, 1 - s2), dt * relvel⟩, impulse)
    else none
  else none

/-- The point–triangle branch of the body of
`process_proximity_candidates` (lines 421–482) for one candidate. -/
def process_proximity_point_triangle (eps dt : ℚ) (tris : List Tri3) (prox : PointTriProx)
    (s : DynSurface) (candidate : Vec3st) : Option (Collision × ℚ) :=
  let tri := tris.getD candidate.a ⟨0, 0, 0⟩
  let v := candidate.b
  if tri.v0 ≠ v ∧ tri.v1 ≠ v ∧ tri.v2 ≠ v then
    let q := prox (get_position s v) (get_position s tri.v0)
      (get_position s tri.v1) (get_position s tri.v2)
    let distance := q.1
    let s1 := q.2.1
    let s2 := q.2.2.1
    let s3 := q.2.2.2.1
    let normal := q.2.2.2.2
    if distance < eps then
      let relvel := dot3 normal
        (get_velocity s v -
          (s1 • get_velocity s tri.v0 + s2 • get_velocity s tri.v1 +
            s3 • get_velocity s tri.v2))
      let diff := get_position s v -
        (s1 • get_position s tri.v0 + s2 • get_position s tri.v1 +
          s3 • get_position s tri.v2)
      if dot3 normal diff < 0 then none
      else
        let d := eps - distance
        if relvel > 1 / 10 * d / dt then none
        else
          let impulse1 := max 0 (1 / 10 * d / dt - relvel)
          let impulse2 := dt * proximity_k * d
          let impulse := min impulse1 impulse2
          some (⟨false, (v, tri.v0, tri.v1, tri.v2), normal, (1, s1, s2, s3),
            dt * relvel⟩, impulse)
    else none
  else none

@[simp] theorem v3_add_def (a b : Vec3q) :
    a + b = ⟨a.x + b.x, a.y + b.y, a.z + b.z⟩ := rfl

@[simp] theorem v3_sub_def (a b : Vec3q) :
    a - b = ⟨a.x - b.x, a.y - b.y, a.z - b.z⟩ := rfl

@[simp] theorem v3_neg_def (a : Vec3q) : -a = ⟨-a.x, -a.y, -a.z⟩ := rfl

@[simp] theorem v3_smul_def (c : ℚ) (a : Vec3q) :
    c • a = ⟨c * a.x, c * a.y, c * a.z⟩ := rfl

/-- Concrete surface for the edge–edge proximity witness: two parallel edges
at distance 1/2, at rest. -/
def proxSurfEE : DynSurface :=
  ⟨[⟨0, 0, 0⟩, ⟨1, 0, 0⟩, ⟨0, 0, 1/2⟩, ⟨1, 0, 1/2⟩], [],
    [v3zero, v3zero, v3zero, v3zero], []⟩

/-- Concrete surface for the point–triangle proximity witness: a point at
height 1/2 above a triangle, at rest. -/
def proxSurfPT : DynSurface :=
  ⟨[⟨0, 0, 0⟩, ⟨1, 0, 0⟩, ⟨0, 1, 0⟩, ⟨0, 0, 1/2⟩], [],
    [v3zero, v3zero, v3zero, v3zero], []⟩

/-- The `Intersection` record of `collisionpipeline.h`. -/
structure Intersection where
  m_edge_index : Nat
  m_triangle_index : Nat
deriving DecidableEq

/-- Modelled from the spec: the tolerant boolean static intersection test
`segment_triangle_intersection` of `common/collisionqueries.cpp` (not under
verification), as the exact-predicate test of C1/C2: compare the signs of the
five orientation determinants of the segment against the triangle; any
vanishing determinant is a degeneracy, resolved conservatively by the
`degeneracy_counts_as_intersection` flag. -/
def orient3d (a b c d : Vec3q) : ℚ :=
  (b.x - a.x) * ((c.y - a.y) * (d.z - a.z) - (c.z - a.z) * (d.y - a.y)) -
    (b.y - a.y) * ((c.x - a.x) * (d.z - a.z) - (c.z - a.z) * (d.x - a.x)) +
    (b.z - a.z) * ((c.x - a.x) * (d.y - a.y) - (c.y - a.y) * (d.x - a.x))

/-- Modelled from the spec: segment `[s0, s1]` against triangle `[t0, t1, t2]`;
see `orient3d`. -/
def segment_triangle_intersection (s0 s1 t0 t1 t2 : Vec3q)
    (degeneracy_counts_as_intersection : Bool) : Bool :=
  let d0 := orient3d s0 t0 t1 t2
  let d1 := orient3d s1 t0 t1 t2
  let e0 := orient3d s0 s1 t0 t1
  let e1 := orient3d s0 s1 t1 t2
  let e2 := orient3d s0 s1 t2 t0
  if d0 = 0 ∨ d1 = 0 ∨ e0 = 0 ∨ e1 = 0 ∨ e2 = 0 then degeneracy_counts_as_intersection
  else
    decide ((d0 < 0 ∧ 0 < d1 ∨ 0 < d0 ∧ d1 < 0) ∧
      ((0 < e0 ∧ 0 < e1 ∧ 0 < e2) ∨ (e0 < 0 ∧ e1 < 0 ∧ e2 < 0)))

/-- `CollisionPipeline::get_intersections` (lines 1747–1826): for every
triangle, gather edge candidates from the broad phase (`edge_candidates`
oracle, absorbing the `get_solid_edges` flag), skip degenerate (tombstoned)
triangles and edges and incident pairs, and record every positive
segment–triangle test at current (or predicted) positions. -/
def get_intersections (tris : List Tri3) (edges : List Edge2)
    (edge_candidates : Nat → List Nat) (s : DynSurface)
    (degeneracy_counts_as_intersection use_new_positions : Bool) : List Intersection :=
  (List.range tris.length).flatMap fun i =>
    let triangle := tris.getD i ⟨0, 0, 0⟩
    if triangle.v0 = triangle.v1 ∨ triangle.v1 = triangle.v2 ∨ triangle.v2 = triangle.v0 then
      []
    else
      (edge_candidates i).filterMap fun j =>
        let edge := edges.getD j ⟨0, 0⟩
        if edge.e0 = edge.e1 then none
        else if edge.e0 = triangle.v0 ∨ edge.e0 = triangle.v1 ∨ edge.e0 = triangle.v2 ∨
            edge.e1 = triangle.v0 ∨ edge.e1 = triangle.v1 ∨ edge.e1 = triangle.v2 then none
        else
          let p := fun v =>
            if use_new_positions then get_newposition s v else get_position s v
          if segment_triangle_intersection (p edge.e0) (p edge.e1) (p triangle.v0)
              (p triangle.v1) (p triangle.v2) degeneracy_counts_as_intersection then
            some ⟨j, i⟩
          else none

/-- Audit-witness mesh: one triangle on vertices 0,1,2 and one edge on
vertices 3,4, with every position at the origin, so the (degenerate)
segment–triangle test fires with `degeneracy_counts_as_intersection`. -/
def auditSurf : DynSurface := ⟨[], [], [], []⟩

/-- Modelled from the spec: the surface-tracker state the mesh pincher
touches.  `SurfTrack`/`DynamicSurface`/`NonDestructiveTriMesh` live outside
the sources under verification; per the data model, entities are stable-index
table rows, deletion tombstones a slot (`vertex_deleted` flag for vertices,
the repeated-vertex sentinel triangle `(0,0,0)` for triangles) and indices are
never reused before defragmentation. -/
structure SurfTrack where
  positions : List Vec3q
  newpositions : List Vec3q
  masses : List ℚ
  vertex_deleted : List Bool
  triangles : List Tri3
deriving DecidableEq

/-- Modelled from the spec: `get_position` on the tracker surface. -/
def st_get_position (s : SurfTrack) (v : Nat) : Vec3q := s.positions.getD v v3zero

/-- Modelled from the spec: `add_vertex` appends a fresh vertex row (position,
predicted position, mass, live flag) and returns its stable index. -/
def add_vertex (s : SurfTrack) (p : Vec3q) (m : ℚ) : SurfTrack × Nat :=
  (⟨s.positions ++ [p], s.newpositions ++ [p], s.masses ++ [m],
    s.vertex_deleted ++ [false], s.triangles⟩, s.positions.length)

/-- Modelled from the spec: `set_position`. -/
def set_position (s : SurfTrack) (v : Nat) (p : Vec3q) : SurfTrack :=
  { s with positions := s.positions.set v p }

/-- Modelled from the spec: `set_newposition`. -/
def set_newposition (s : SurfTrack) (v : Nat) (p : Vec3q) : SurfTrack :=
  { s with newpositions := s.newpositions.set v p }

/-- Modelled from the spec: `remove_vertex` tombstones the slot. -/
def remove_vertex (s : SurfTrack) (v : Nat) : SurfTrack :=
  { s with vertex_deleted := s.vertex_deleted.set v true }

/-- Modelled from the spec: `add_triangle` appends a triangle row. -/
def add_triangle (s : SurfTrack) (t : Tri3) : SurfTrack :=
  { s with triangles := s.triangles ++ [t] }

/-- Modelled from the spec: `remove_triangle` overwrites the slot with the
repeated-vertex sentinel `(0,0,0)`. -/
def remove_triangle (s : SurfTrack) (idx : Nat) : SurfTrack :=
  { s with triangles := s.triangles.set idx ⟨0, 0, 0⟩ }

/-- The inner per-slot loop of `MeshPincher::pull_apart_vertex`
(lines 131–143): build the new triangle by substituting the duplicate for the
pinched vertex, and accumulate the positions of the other slots into the
centroid sum. -/
def pinch_subst (vertex_index dup : Nat) (tri : Tri3) (s : SurfTrack) : Tri3 × Vec3q :=
  let r0 := if tri.v0 = vertex_index then (dup, v3zero) else (tri.v0, st_get_position s tri.v0)
  let r1 := if tri.v1 = vertex_index then (dup, v3zero) else (tri.v1, st_get_position s tri.v1)
  let r2 := if tri.v2 = vertex_index then (dup, v3zero) else (tri.v2, st_get_position s tri.v2)
  (⟨r0.1, r1.1, r2.1⟩, r0.2 + r1.2 + r2.2)

/-- One iteration of the per-component loop of `pull_apart_vertex`
(lines 118–159): duplicate the vertex, map the component's triangles onto the
duplicate while summing the other vertices' positions, divide by twice the
component size, and move the duplicate toward that centroid by the
interpolation weight `dx`.  Returns (surface, duplicate index, new
triangles). -/
def pinch_component (dx : ℚ) (vertex_index : Nat) (s : SurfTrack) (comp : List Nat) :
    SurfTrack × Nat × List Tri3 :=
  let dup := s.positions.length
  let s1 := (add_vertex s (st_get_position s vertex_index) (s.masses.getD vertex_index 0)).1
  let acc := comp.foldl
    (fun (a : Vec3q × List Tri3) t =>
      let r := pinch_subst vertex_index dup (s1.triangles.getD t ⟨0, 0, 0⟩) s1
      (a.1 + r.2, a.2 ++ [r.1]))
    (v3zero, [])
  let centroid := (1 / ((comp.length : ℚ) * 2)) • acc.1
  let added_vertex_position := (1 - dx) • st_get_position s1 dup + dx • centroid
  let s2 := set_newposition (set_position s1 dup added_vertex_position) dup
    added_vertex_position
  (s2, dup, acc.2)

/-- The whole per-component loop of `pull_apart_vertex`: components are
processed in order; the source loops `i = 0 .. size-2`, so the caller passes
all components but the last.  Returns
(surface, vertices added, triangles to add, triangles to delete). -/
def pull_apart_loop (dx : ℚ) (vertex_index : Nat) :
    SurfTrack → List (List Nat) → SurfTrack × List Nat × List Tri3 × List Nat
  | s, [] => (s, [], [], [])
  | s, comp :: rest =>
      let r := pinch_component dx vertex_index s comp
      let rr := pull_apart_loop dx vertex_index r.1 rest
      (rr.1, r.2.1 :: rr.2.1, r.2.2 ++ rr.2.2.1, comp ++ rr.2.2.2)

/-- The duplication stage of `pull_apart_vertex`: `dx = 10 * proximity_epsilon`
and all components except the last are processed. -/
def pull_apart_prepare (eps : ℚ) (s : SurfTrack) (vertex_index : Nat)
    (connected_components : List (List Nat)) :
    SurfTrack × List Nat × List Tri3 × List Nat :=
  pull_apart_loop (10 * eps) vertex_index s
    (connected_components.take (connected_components.length - 1))

/-- Pairwise `any` over the tail pairs of a list (the `i < j` double loop of
the collision check, lines 194–205). -/
def any_pair (f : Tri3 → Tri3 → Bool) : List Tri3 → Bool
  | [] => false
  | t :: rest => rest.any (f t) || any_pair f rest

/-- The collision-safety check of `pull_apart_vertex` (lines 161–206): each
proposed triangle against the broad-phase overlapping mesh triangles (`bp`
stands for `get_potential_triangle_collisions`, `tt` for
`check_triangle_triangle_intersection` of `common/`), then the proposed
triangles pairwise. -/
def pinch_collision_check (bp : SurfTrack → Tri3 → List Nat)
    (tt : Tri3 → Tri3 → List Vec3q → Bool) (s : SurfTrack)
    (triangles_to_add : List Tri3) : Bool :=
  (triangles_to_add.any fun cur =>
    (bp s cur).any fun j => tt cur (s.triangles.getD j ⟨0, 0, 0⟩) s.positions) ||
  any_pair (fun a b => tt a b s.positions) triangles_to_add

/-- `collision_occurs` of `pull_apart_vertex`: only computed under
`m_collision_safety`. -/
def pull_apart_collision_occurs (eps : ℚ) (collision_safety : Bool)
    (bp : SurfTrack → Tri3 → List Nat) (tt : Tri3 → Tri3 → List Vec3q → Bool)
    (s : SurfTrack) (vertex_index : Nat) (connected_components : List (List Nat)) : Bool :=
  let r := pull_apart_prepare eps s vertex_index connected_components
  collision_safety && pinch_collision_check bp tt r.1 r.2.2.1

/-- `MeshPincher::pull_apart_vertex` (lines 109–248): duplicate the vertex for
every component but the last; if collision safety is on and some proposed
triangle intersects the mesh or another proposed triangle, remove the added
vertices and return false; otherwise add the new triangles, delete the old
ones and return true. -/
def pull_apart_vertex (eps : ℚ) (collision_safety : Bool)
    (bp : SurfTrack → Tri3 → List Nat) (tt : Tri3 → Tri3 → List Vec3q → Bool)
    (s : SurfTrack) (vertex_index : Nat) (connected_components : List (List Nat)) :
    SurfTrack × Bool :=
  let r := pull_apart_prepare eps s vertex_index connected_components
  if pull_apart_collision_occurs eps collision_safety bp tt s vertex_index
      connected_components then
    (r.2.1.foldl (fun acc v => remove_vertex acc v) r.1, false)
  else
    let s2 := r.2.2.1.foldl (fun acc t => add_triangle acc t) r.1
    (r.2.2.2.foldl (fun acc t => remove_triangle acc t) s2, true)

/-- Modelled from the spec: table alignment of the vertex rows (every vertex
attribute array has one entry per stable vertex index). -/
def st_aligned (s : SurfTrack) : Prop :=
  s.newpositions.length = s.positions.length ∧
  s.masses.length = s.positions.length ∧
  s.vertex_deleted.length = s.positions.length

/-- The observable vertex state of the tracker surface: index, position,
predicted position and mass of every live (non-tombstoned) vertex slot. -/
def live_vertex_data (s : SurfTrack) : List (Nat × Vec3q × Vec3q × ℚ) :=
  (List.range s.positions.length).filterMap fun i =>
    if s.vertex_deleted.getD i false then none
    else some (i, s.positions.getD i v3zero, s.newpositions.getD i v3zero, s.masses.getD i 0)

/-- Pincher-witness surface: five vertices at the origin, two triangle fans
sharing only vertex 0. -/
def pinchSurf : SurfTrack :=
  ⟨List.replicate 5 v3zero, List.replicate 5 v3zero, List.replicate 5 1,
    List.replicate 5 false, [⟨0, 1, 2⟩, ⟨0, 3, 4⟩]⟩

/-- Pincher-witness broad phase: every query returns mesh triangle 0. -/
def pinchBp : SurfTrack → Tri3 → List Nat := fun _ _ => [0]

/-- Pincher-witness narrow phase: every triangle pair reports intersection. -/
def pinchTt : Tri3 → Tri3 → List Vec3q → Bool := fun _ _ _ => true

/-- The per-triangle contribution to the pinch centroid sum: the positions of
the triangle's slots other than the pinched vertex (the `else` branch of the
slot loop). -/
def pinch_other_sum (vi : Nat) (tri : Tri3) (s : SurfTrack) : Vec3q :=
  (if tri.v0 = vi then v3zero else st_get_position s tri.v0) +
    (if tri.v1 = vi then v3zero else st_get_position s tri.v1) +
    (if tri.v2 = vi then v3zero else st_get_position s tri.v2)

/-- The centroid a pinched component's duplicate is pulled toward: the sum of
the non-pinched vertex positions of the component's triangles, divided by
twice the component size. -/
def pinch_centroid (s : SurfTrack) (vi : Nat) (comp : List Nat) : Vec3q :=
  (1 / ((comp.length : ℚ) * 2)) •
    comp.foldl (fun a t => a + pinch_other_sum vi (s.triangles.getD t ⟨0, 0, 0⟩) s) v3zero

/-- Validity of a triangle index for a surface: all three vertex slots are
in-range rows of the vertex table. -/
def tri_ok (s : SurfTrack) (t : Nat) : Prop :=
  (s.triangles.getD t ⟨0, 0, 0⟩).v0 < s.positions.length ∧
  (s.triangles.getD t ⟨0, 0, 0⟩).v1 < s.positions.length ∧
  (s.triangles.getD t ⟨0, 0, 0⟩).v2 < s.positions.length

instance (s : SurfTrack) (t : Nat) : Decidable (tri_ok s t) :=
  decidable_of_iff
    ((s.triangles.getD t ⟨0, 0, 0⟩).v0 < s.positions.length ∧
      (s.triangles.getD t ⟨0, 0, 0⟩).v1 < s.positions.length ∧
      (s.triangles.getD t ⟨0, 0, 0⟩).v2 < s.positions.length) Iff.rfl

/-- The inner scan of `MeshPincher::partition_vertex_neighbourhood`
(lines 77–95): walk the current incidence list and push onto the stack every
triangle adjacent to `curr` that is on neither the stack nor the visited list
(`adj` stands for `NonDestructiveTriMesh::triangles_are_adjacent`).  The stack
is kept top-first, so `push_back`/`pop_back` become cons/head. -/
def scan_push (adj : Nat → Nat → Bool) (curr : Nat) (visited : List Nat)
    (remaining : List Nat) (stack : List Nat) : List Nat :=
  remaining.foldl
    (fun st x =>
      if x = curr then st
      else if adj curr x then
        if x ∈ st ∨ x ∈ visited then st else x :: st
      else st)
    stack

/-- The flood-fill of one connected component (the inner `while` of
`partition_vertex_neighbourhood`, lines 64–96): pop a triangle, erase it from
the incidence list, mark it visited, and push its unseen neighbours.  The
first argument is recursion fuel; the loop consumes one incidence-list entry
per iteration, so any fuel above the list length is enough. -/
def bfs_loop (adj : Nat → Nat → Bool) :
    Nat → List Nat → List Nat → List Nat → List Nat × List Nat
  | 0, remaining, _, visited => (remaining, visited)
  | _ + 1, remaining, [], visited => (remaining, visited)
  | fuel + 1, remaining, curr :: rest, visited =>
      let remaining' := remaining.erase curr
      let visited' := visited ++ [curr]
      let stack' := scan_push adj curr visited' remaining' rest
      bfs_loop adj fuel remaining' stack' visited'

/-- The outer `while` of `partition_vertex_neighbourhood` (lines 58–100):
seed a fresh component with the back of the incidence list, flood-fill it, and
append the visited set as one connected component. -/
def partition_vertex_neighbourhood_loop (adj : Nat → Nat → Bool) :
    Nat → List Nat → List (List Nat) → List (List Nat)
  | 0, _, acc => acc
  | fuel + 1, remaining, acc =>
      match remaining.getLast? with
      | none => acc
      | some seed =>
          let r := bfs_loop adj (remaining.length + 1) remaining [seed] []
          partition_vertex_neighbourhood_loop adj fuel r.1 (acc ++ [r.2])

/-- `MeshPincher::partition_vertex_neighbourhood` (lines 50–101), over the
incidence list `V→T[vertex]` and the adjacency oracle. -/
def partition_vertex_neighbourhood (adj : Nat → Nat → Bool) (incident : List Nat) :
    List (List Nat) :=
  partition_vertex_neighbourhood_loop adj (incident.length + 1) incident []

/-- Two triangles are linked within the incidence list `S` when a chain of
pairwise-adjacent triangles, all drawn from `S`, connects them. -/
def linkedIn (adj : Nat → Nat → Bool) (S : List Nat) (a b : Nat) : Prop :=
  Relation.ReflTransGen (fun u w => (adj u w = true ∨ adj w u = true) ∧ u ∈ S ∧ w ∈ S) a b

/-- Witness adjacency for the partition claim: triangles 0 and 1 adjacent,
triangle 2 isolated. -/
def adjW : Nat → Nat → Bool := fun a b => (a == 0 && b == 1) || (a == 1 && b == 0)

/-- `CollisionPipeline::apply_impulse` (lines 98–175) over the rational
surface: distribute the impulse along the normal by barycentric weight over
mass, apply Coulomb friction capped by `μ·|Δv_n|` and the pre-impact
tangential speed, and reset the four predicted positions to
`x + dt·v`.  `magq` stands for the Euclidean norm `mag` of `common/vec.h`
(irrational in general, hence an oracle); `mu` is `m_friction_coefficient`.
The four vertex indices are assumed distinct, as in every pipeline call
site (the C++ updates its four vertices through references). -/
def apply_impulse (magq : Vec3q → ℚ) (mu : ℚ) (s : DynSurface)
    (alphas : ℚ × ℚ × ℚ × ℚ) (vids : Nat × Nat × Nat × Nat)
    (impulse_magnitude : ℚ) (normal : Vec3q) (dt : ℚ) : DynSurface :=
  let e0 := vids.1
  let e1 := vids.2.1
  let e2 := vids.2.2.1
  let e3 := vids.2.2.2
  let v0 := get_velocity s e0
  let v1 := get_velocity s e1
  let v2 := get_velocity s e2
  let v3 := get_velocity s e3
  let inv_m0 := 1 / s.masses.getD e0 0
  let inv_m1 := 1 / s.masses.getD e1 0
  let inv_m2 := 1 / s.masses.getD e2 0
  let inv_m3 := 1 / s.masses.getD e3 0
  let s0 := alphas.1
  let s1 := alphas.2.1
  let s2 := alphas.2.2.1
  let s3 := alphas.2.2.2
  let i := impulse_magnitude /
    (s0 * s0 * inv_m0 + s1 * s1 * inv_m1 + s2 * s2 * inv_m2 + s3 * s3 * inv_m3)
  let pre_relative_velocity := s0 • v0 + s1 • v1 + s2 • v2 + s3 • v3
  let pre_rv_normal := dot3 normal pre_relative_velocity • normal
  let pre_rv_tangential := pre_relative_velocity - pre_rv_normal
  let v0a := v0 + (i * s0 * inv_m0) • normal
  let v1a := v1 + (i * s1 * inv_m1) • normal
  let v2a := v2 + (i * s2 * inv_m2) • normal
  let v3a := v3 + (i * s3 * inv_m3) • normal
  let post_relative_velocity := s0 • v0a + s1 • v1a + s2 • v2a + s3 • v3a
  let post_rv_normal := dot3 normal post_relative_velocity • normal
  let delta_rv_normal := magq (post_rv_normal - pre_rv_normal)
  let friction_impulse := min (mu * delta_rv_normal) (magq pre_rv_tangential)
  let friction_i := friction_impulse /
    (s0 * s0 * inv_m0 + s1 * s1 * inv_m1 + s2 * s2 * inv_m2 + s3 * s3 * inv_m3)
  let tan0 := -pre_rv_tangential
  let mag_n := magq tan0
  let tan_collision_normal :=
    if mag_n > 1 / 100000000 then (1 / mag_n) • tan0 else v3zero
  let v0b := v0a + (friction_i * s0 * inv_m0) • tan_collision_normal
  let v1b := v1a + (friction_i * s1 * inv_m1) • tan_collision_normal
  let v2b := v2a + (friction_i * s2 * inv_m2) • tan_collision_normal
  let v3b := v3a + (friction_i * s3 * inv_m3) • tan_collision_normal
  let vel' := (((s.velocities.set e0 v0b).set e1 v1b).set e2 v2b).set e3 v3b
  let s' : DynSurface := ⟨s.positions, s.newpositions, vel', s.masses⟩
  let np := (((s'.newpositions.set e0
      (get_position s' e0 + dt • get_velocity s' e0)).set e1
      (get_position s' e1 + dt • get_velocity s' e1)).set e2
      (get_position s' e2 + dt • get_velocity s' e2)).set e3
      (get_position s' e3 + dt • get_velocity s' e3)
  ⟨s'.positions, np, s'.velocities, s'.masses⟩

/-- `CollisionPipeline::apply_edge_edge_impulse` (lines 184–202). -/
def apply_edge_edge_impulse (magq : Vec3q → ℚ) (mu : ℚ) (s : DynSurface)
    (collision : Collision) (impulse_magnitude dt : ℚ) : DynSurface :=
  let b := collision.m_barycentric_coordinates
  apply_impulse magq mu s (b.1, b.2.1, -b.2.2.1, -b.2.2.2) collision.m_vertex_indices
    impulse_magnitude collision.m_normal dt

/-- `CollisionPipeline::apply_triangle_point_impulse` (lines 212–231). -/
def apply_triangle_point_impulse (magq : Vec3q → ℚ) (mu : ℚ) (s : DynSurface)
    (collision : Collision) (impulse_magnitude dt : ℚ) : DynSurface :=
  let b := collision.m_barycentric_coordinates
  apply_impulse magq mu s (b.1, -b.2.1, -b.2.2.1, -b.2.2.2) collision.m_vertex_indices
    impulse_magnitude collision.m_normal dt

/-- The impulse-application dispatch of the candidate-processing body
(lines 702 and 730). -/
def resolve_collision_impulse (magq : Vec3q → ℚ) (mu : ℚ) :
    DynSurface → Collision → ℚ → ℚ → DynSurface :=
  fun s coll imp dt =>
    if coll.m_is_edge_edge then apply_edge_edge_impulse magq mu s coll imp dt
    else apply_triangle_point_impulse magq mu s coll imp dt

/-- Modelled from the spec: the continuous point–triangle collision decision
of C3 (`point_triangle_collision` of `common/`, not under verification) — the
four vertices move linearly over `t ∈ [0,1]` and at some time the point lies
on the triangle, i.e. it equals a convex barycentric combination of the three
triangle vertices. -/
def point_triangle_collision_spec (p0 p1 a0 a1 b0 b1 c0 c1 : Vec3q) : Prop :=
  ∃ t : ℚ, 0 ≤ t ∧ t ≤ 1 ∧
    ∃ al be ga : ℚ, 0 ≤ al ∧ 0 ≤ be ∧ 0 ≤ ga ∧ al + be + ga = 1 ∧
      (1 - t) • p0 + t • p1 =
        al • ((1 - t) • a0 + t • a1) + be • ((1 - t) • b0 + t • b1) +
          ga • ((1 - t) • c0 + t • c1)

/-- Trivial oracle set with no detections, for the C9 witness. -/
def noDetectOracles : CcdOracles Unit :=
  ⟨fun _ _ => none, fun s _ _ _ => s, fun _ _ => []⟩

/-- Trivial phase for the C9 witness. -/
def trivPhase : PhaseGen Unit := ⟨fun _ => false, fun _ _ => [⟨0, 1, 0⟩], [0, 1]⟩

/-- The single triangle of the C9 counterexample mesh. -/
def cleanTris : List Tri3 := [⟨0, 1, 2⟩]

/-- The three edges of the C9 counterexample mesh. -/
def cleanEdges : List Edge2 := [⟨0, 1⟩, ⟨1, 2⟩, ⟨2, 0⟩]

/-- C9 counterexample surface: a static triangle in the plane `z = 0` and a
free vertex 3 above it whose predicted position is below it (velocity
`(0,0,-2)`, `dt = 1`). -/
def cleanSurf : DynSurface :=
  ⟨[⟨1, 1, 0⟩, ⟨5, 1, 0⟩, ⟨1, 5, 0⟩, ⟨1, 1, 1⟩],
   [⟨1, 1, 0⟩, ⟨5, 1, 0⟩, ⟨1, 5, 0⟩, ⟨1, 1, -1⟩],
   [v3zero, v3zero, v3zero, ⟨0, 0, -2⟩],
   [1, 1, 1, 1]⟩

/-- The state of the counterexample surface after the pipeline's impulse. -/
def cleanSurfAfter : DynSurface :=
  ⟨[⟨1, 1, 0⟩, ⟨5, 1, 0⟩, ⟨1, 5, 0⟩, ⟨1, 1, 1⟩],
   [⟨1, 1, -1⟩, ⟨5, 1, 0⟩, ⟨1, 5, 0⟩, ⟨1, 1, 0⟩],
   [⟨0, 0, -1⟩, v3zero, v3zero, ⟨0, 0, -1⟩],
   [1, 1, 1, 1]⟩

/-- Norm oracle for the counterexample: exact on every vector the run feeds
it (`(0,0,2)` and the zero vector). -/
def magStar : Vec3q → ℚ := fun w => if w = ⟨0, 0, 2⟩ then 2 else 0

/-- Point–triangle CCD oracle for the counterexample: vertex 3, travelling
from `(1,1,1)` to `(1,1,-1)`, crosses the plane `z = 0` at `t = 1/2` exactly
at triangle vertex 0, so the narrow phase reports barycentric coordinates
`(1, 0, 0)`, normal `(0,0,1)` and relative displacement `-2`. -/
def ptcStar : PointTriCcd := fun _ pnew _ _ _ _ _ _ =>
  if pnew = ⟨1, 1, -1⟩ then some (1, 0, 0, ⟨0, 0, 1⟩, -2) else none

/-- Edge-edge CCD oracle for the counterexample: never fires. -/
def sscStar : SegSegCcd := fun _ _ _ _ _ _ _ _ => none

/-- The narrow-phase dispatch of `process_collision_candidates`
(lines 691–697): kind 1 candidates go to the segment-segment detector,
others to the point-triangle detector. -/
def detectStar : DynSurface → Vec3st → Option Collision := fun s c =>
  if c.kind = 1 then detect_segment_segment_collision cleanEdges (fun _ => false) sscStar s c
  else detect_point_triangle_collision cleanTris (fun _ => false) ptcStar s c

/-- Oracle bundle for the C9 counterexample: the real impulse resolution with
zero friction coefficient, and one update candidate regenerated around the
struck vertex. -/
def oraclesStar : CcdOracles DynSurface :=
  ⟨detectStar, resolve_collision_impulse magStar 0, fun _ _ => [⟨0, 3, 0⟩]⟩

/-- Phase 1 (points vs solid triangles): no solid triangles, so the broad
phase yields nothing for any vertex. -/
def pvStar : PhaseGen DynSurface := ⟨fun _ => false, fun _ _ => [], [0, 1, 2, 3]⟩

/-- Phase 2 (triangles vs all points): the one triangle against each vertex. -/
def ptStar : PhaseGen DynSurface :=
  ⟨fun _ => false, fun _ _ => [⟨0, 0, 0⟩, ⟨0, 1, 0⟩, ⟨0, 2, 0⟩, ⟨0, 3, 0⟩], [0]⟩

/-- Phase 3 (edges vs all edges): each edge against the three edges. -/
def peStar : PhaseGen DynSurface :=
  ⟨fun _ => false, fun _ _ => [⟨0, 0, 1⟩, ⟨0, 1, 1⟩, ⟨0, 2, 1⟩], [0, 1, 2]⟩

/-- The collision the narrow phase reports for candidate `(0,3,0)`. -/
def collStar : Collision := ⟨false, (3, 0, 1, 2), ⟨0, 0, 1⟩, (1, 1, 0, 0), -2⟩

theorem pcc_loop_iters_le {σ : Type} (o : CcdOracles σ) (dt : ℚ) (add : Bool) :
    ∀ (fuel : Nat) (surf : σ) (cs ns : List Vec3st) (st : ProcessCollisionStatus) (i : Nat),
      (pcc_loop o dt add fuel surf cs ns st i).2.2.2.2 ≤ i + fuel := by
  intro fuel
  induction fuel with
  | zero => intro surf cs ns st i; simp [pcc_loop]
  | succ n ih =>
      intro surf cs ns st i
      cases cs with
      | nil => simp [pcc_loop]
      | cons c rest =>
          calc (pcc_loop o dt add (n + 1) surf (c :: rest) ns st i).2.2.2.2
              ≤ (i + 1) + n := by rw [pcc_loop]; exact ih _ _ _ _ _
            _ = i + (n + 1) := by omega

theorem pcc_loop_aliased_iters_le {σ : Type} (o : CcdOracles σ) (dt : ℚ) (add : Bool) :
    ∀ (fuel : Nat) (surf : σ) (cs : List Vec3st) (st : ProcessCollisionStatus) (i : Nat),
      (pcc_loop_aliased o dt add fuel surf cs st i).2.2.2 ≤ i + fuel := by
  intro fuel
  induction fuel with
  | zero => intro surf cs st i; simp [pcc_loop_aliased]
  | succ n ih =>
      intro surf cs st i
      cases cs with
      | nil => simp [pcc_loop_aliased]
      | cons c rest =>
          calc (pcc_loop_aliased o dt add (n + 1) surf (c :: rest) st i).2.2.2
              ≤ (i + 1) + n := by rw [pcc_loop_aliased]; exact ih _ _ _ _
            _ = i + (n + 1) := by omega

/-- Claim C3: every call to `process_collision_candidates` executes at most
`5 * N` candidate-processing iterations, where `N` is the number of candidates
in the list at entry — both in the ordinary form, and in the wind-down form
where the same growable list serves as candidate input and new-candidate
output, so that the loop terminates even though impulses enqueue new entries
into the list being consumed. -/
theorem process_collision_candidates_iteration_bound :
    (∀ (σ : Type) (o : CcdOracles σ) (dt : ℚ) (add : Bool) (surf : σ)
        (candidates new_candidates : List Vec3st) (st : ProcessCollisionStatus),
        (process_collision_candidates o dt add surf candidates new_candidates st).2.2.2.2 ≤
          5 * candidates.length) ∧
    (∀ (σ : Type) (o : CcdOracles σ) (dt : ℚ) (add : Bool) (surf : σ)
        (candidates : List Vec3st) (st : ProcessCollisionStatus),
        (process_collision_candidates_aliased o dt add surf candidates st).2.2.2 ≤
          5 * candidates.length) := by
  constructor
  · intro σ o dt add surf cs ns st
    have h := pcc_loop_iters_le o dt add (5 * cs.length) surf cs ns st 0
    simpa [process_collision_candidates] using h
  · intro σ o dt add surf cs st
    have h := pcc_loop_aliased_iters_le o dt add (5 * cs.length) surf cs st 0
    simpa [process_collision_candidates_aliased] using h

theorem pcc_body_keeps_overflow {σ : Type} (o : CcdOracles σ) (dt : ℚ) (add : Bool)
    (surf : σ) (c : Vec3st) (ns : List Vec3st) (st : ProcessCollisionStatus)
    (h : st.overflow = true) :
    (pcc_body o dt add surf c ns st).2.1 = ns ∧
    (pcc_body o dt add surf c ns st).2.2.overflow = true := by
  unfold pcc_body
  cases hd : o.detect surf c with
  | none => simp [h]
  | some coll => simp [h]

theorem pcc_loop_keeps_overflow {σ : Type} (o : CcdOracles σ) (dt : ℚ) (add : Bool) :
    ∀ (fuel : Nat) (surf : σ) (cs ns : List Vec3st) (st : ProcessCollisionStatus) (i : Nat),
      st.overflow = true →
      (pcc_loop o dt add fuel surf cs ns st i).2.2.1 = ns ∧
      (pcc_loop o dt add fuel surf cs ns st i).2.2.2.1.overflow = true := by
  intro fuel
  induction fuel with
  | zero => intro surf cs ns st i h; simp [pcc_loop, h]
  | succ n ih =>
      intro surf cs ns st i h
      cases cs with
      | nil => simp [pcc_loop, h]
      | cons c rest =>
          have hb := pcc_body_keeps_overflow o dt add surf c ns st h
          have := ih (pcc_body o dt add surf c ns st).1 rest
            (pcc_body o dt add surf c ns st).2.1 (pcc_body o dt add surf c ns st).2.2
            (i + 1) hb.2
          rw [pcc_loop]
          exact ⟨by rw [this.1, hb.1], this.2⟩

/-- Claim C4 (amended): when a collision is processed while the new-candidate
list already holds more than `MAX_CANDIDATES = 1000000` entries, the status
overflow flag is set; once the flag is set the loop never enqueues another
candidate (though it keeps draining the remaining ones rather than aborting);
and a pass whose status ends with `overflow = true` makes `handle_collisions`
return `false`. -/
theorem overflow_sets_flag_blocks_enqueue_and_fails :
    (∀ (σ : Type) (o : CcdOracles σ) (dt : ℚ) (add : Bool) (surf : σ) (c : Vec3st)
        (ns : List Vec3st) (st : ProcessCollisionStatus) (coll : Collision),
        o.detect surf c = some coll → ns.length > MAX_CANDIDATES →
        (pcc_body o dt add surf c ns st).2.2.overflow = true ∧
        (pcc_body o dt add surf c ns st).2.1 = ns) ∧
    (∀ (σ : Type) (o : CcdOracles σ) (dt : ℚ) (add : Bool) (fuel : Nat) (surf : σ)
        (cs ns : List Vec3st) (st : ProcessCollisionStatus) (i : Nat),
        st.overflow = true →
        (pcc_loop o dt add fuel surf cs ns st i).2.2.1 = ns) ∧
    (∀ (σ : Type) (o : CcdOracles σ) (dt : ℚ) (pv pt pe : PhaseGen σ) (surf : σ),
        (hc_pass o dt pv pt pe surf).2.2.overflow = true →
        (handle_collisions o dt pv pt pe surf).2 = false) := by
  refine ⟨?_, ?_, ?_⟩
  · intro σ o dt add surf c ns st coll hd hlen
    unfold pcc_body
    rw [hd]
    simp [hlen]
  · intro σ o dt add fuel surf cs ns st i h
    exact (pcc_loop_keeps_overflow o dt add fuel surf cs ns st i h).1
  · intro σ o dt pv pt pe surf h
    unfold handle_collisions
    simp [h]

theorem cex_biglen : bigList.length > MAX_CANDIDATES := by
  rw [bigList, List.length_replicate]
  norm_num [MAX_CANDIDATES]

theorem cex_body_ok (s : Nat) (ns : List Vec3st) (st : ProcessCollisionStatus)
    (hlen : ¬ ns.length > MAX_CANDIDATES) (hover : st.overflow = false) :
    pcc_body cexOracles 1 true s cexCand ns st =
      (s + 1, ns ++ (if s + 1 = 1 then bigList else []),
        { st with collision_found := true }) := by
  unfold pcc_body
  simp [cexOracles, hlen, hover]

theorem cex_body_overflowing (s : Nat) (ns : List Vec3st) (st : ProcessCollisionStatus)
    (hlen : ns.length > MAX_CANDIDATES) :
    pcc_body cexOracles 1 true s cexCand ns st =
      (s + 1, ns, { st with collision_found := true, overflow := true }) := by
  unfold pcc_body
  simp [cexOracles, hlen]

theorem cex_step_cons (n s : Nat) (rest ns : List Vec3st) (st : ProcessCollisionStatus)
    (i : Nat) :
    pcc_loop cexOracles 1 true (n + 1) s (cexCand :: rest) ns st i =
      pcc_loop cexOracles 1 true n (pcc_body cexOracles 1 true s cexCand ns st).1 rest
        (pcc_body cexOracles 1 true s cexCand ns st).2.1
        (pcc_body cexOracles 1 true s cexCand ns st).2.2 (i + 1) := rfl

theorem cex_step_nil (n s : Nat) (ns : List Vec3st) (st : ProcessCollisionStatus) (i : Nat) :
    pcc_loop cexOracles 1 true (n + 1) s [] ns st i = (s, [], ns, st, i) := rfl

theorem cex_run_two :
    pcc_loop cexOracles 1 true 2 0 [cexCand, cexCand, cexCand] [] ⟨false, false, false⟩ 0 =
      (2, [cexCand], bigList, ⟨true, true, false⟩, 2) := by
  rw [show (2 : Nat) = 1 + 1 from rfl, cex_step_cons,
    cex_body_ok 0 [] ⟨false, false, false⟩ (by norm_num [MAX_CANDIDATES]) rfl]
  rw [show ((0 + 1, [] ++ (if 0 + 1 = 1 then bigList else []),
      ({ collision_found := true, overflow := false, all_candidates_processed := false } :
        ProcessCollisionStatus)) :
      Nat × List Vec3st × ProcessCollisionStatus) =
      (1, bigList, ⟨true, false, false⟩) from rfl]
  rw [show (1 : Nat) = 0 + 1 from rfl, cex_step_cons,
    cex_body_overflowing 1 bigList ⟨true, false, false⟩ cex_biglen]
  rfl

theorem cex_run_fifteen :
    pcc_loop cexOracles 1 true (5 * ([cexCand, cexCand, cexCand] : List Vec3st).length) 0
        [cexCand, cexCand, cexCand] [] ⟨false, false, false⟩ 0 =
      (3, [], bigList, ⟨true, true, false⟩, 3) := by
  rw [show (5 * ([cexCand, cexCand, cexCand] : List Vec3st).length : Nat) = 14 + 1 from rfl,
    cex_step_cons, cex_body_ok 0 [] ⟨false, false, false⟩ (by norm_num [MAX_CANDIDATES]) rfl]
  rw [show ((0 + 1, [] ++ (if 0 + 1 = 1 then bigList else []),
      ({ collision_found := true, overflow := false, all_candidates_processed := false } :
        ProcessCollisionStatus)) :
      Nat × List Vec3st × ProcessCollisionStatus) =
      (1, bigList, ⟨true, false, false⟩) from rfl]
  rw [show (14 : Nat) = 13 + 1 from rfl, cex_step_cons,
    cex_body_overflowing 1 bigList ⟨true, false, false⟩ cex_biglen]
  rw [show ((1 + 1, bigList,
      ({ collision_found := true, overflow := true, all_candidates_processed := false } :
        ProcessCollisionStatus)) :
      Nat × List Vec3st × ProcessCollisionStatus) =
      (2, bigList, ⟨true, true, false⟩) from rfl]
  rw [show (13 : Nat) = 12 + 1 from rfl, cex_step_cons,
    cex_body_overflowing 2 bigList ⟨true, true, false⟩ cex_biglen]
  rw [show ((2 + 1, bigList,
      ({ collision_found := true, overflow := true, all_candidates_processed := false } :
        ProcessCollisionStatus)) :
      Nat × List Vec3st × ProcessCollisionStatus) =
      (3, bigList, ⟨true, true, false⟩) from rfl]
  rw [show (12 : Nat) = 11 + 1 from rfl, cex_step_nil]

theorem cex_run_full :
    process_collision_candidates cexOracles 1 true 0 [cexCand, cexCand, cexCand] []
        ⟨false, false, false⟩ =
      (3, [], bigList, ⟨true, true, true⟩, 3) := by
  unfold process_collision_candidates
  simp only [cex_run_fifteen]
  rfl

/-- Claim C4 as stated is false on the code: overflow does not abort the
pass.  In this run, after two loop iterations the status overflow flag is
already `true` while a candidate is still pending, yet the full
`process_collision_candidates` call goes on to execute a third iteration and
apply a third impulse (the impulse counter reaches 3). -/
theorem process_collision_candidates_overflow_not_aborted :
    (pcc_loop cexOracles 1 true 2 0 [cexCand, cexCand, cexCand] []
        ⟨false, false, false⟩ 0).2.2.2.1.overflow = true ∧
    (pcc_loop cexOracles 1 true 2 0 [cexCand, cexCand, cexCand] []
        ⟨false, false, false⟩ 0).2.1 = [cexCand] ∧
    (process_collision_candidates cexOracles 1 true 0 [cexCand, cexCand, cexCand] []
        ⟨false, false, false⟩).2.2.2.2 = 3 ∧
    (process_collision_candidates cexOracles 1 true 0 [cexCand, cexCand, cexCand] []
        ⟨false, false, false⟩).1 = 3 := by
  rw [cex_run_two, cex_run_full]
  exact ⟨rfl, rfl, rfl, rfl⟩

theorem cex_run_ten :
    pcc_loop cexOracles 1 true (5 * ([cexCand, cexCand] : List Vec3st).length) 0
        [cexCand, cexCand] [] ⟨false, false, false⟩ 0 =
      (2, [], bigList, ⟨true, true, false⟩, 2) := by
  rw [show (5 * ([cexCand, cexCand] : List Vec3st).length : Nat) = 9 + 1 from rfl,
    cex_step_cons, cex_body_ok 0 [] ⟨false, false, false⟩ (by norm_num [MAX_CANDIDATES]) rfl]
  rw [show ((0 + 1, [] ++ (if 0 + 1 = 1 then bigList else []),
      ({ collision_found := true, overflow := false, all_candidates_processed := false } :
        ProcessCollisionStatus)) :
      Nat × List Vec3st × ProcessCollisionStatus) =
      (1, bigList, ⟨true, false, false⟩) from rfl]
  rw [show (9 : Nat) = 8 + 1 from rfl, cex_step_cons,
    cex_body_overflowing 1 bigList ⟨true, false, false⟩ cex_biglen]
  rw [show ((1 + 1, bigList,
      ({ collision_found := true, overflow := true, all_candidates_processed := false } :
        ProcessCollisionStatus)) :
      Nat × List Vec3st × ProcessCollisionStatus) =
      (2, bigList, ⟨true, true, false⟩) from rfl]
  rw [show (8 : Nat) = 7 + 1 from rfl, cex_step_nil]

theorem cex_pcc_two :
    process_collision_candidates cexOracles 1 true 0 [cexCand, cexCand] []
        ⟨false, false, false⟩ =
      (2, [], bigList, ⟨true, true, true⟩, 2) := by
  unfold process_collision_candidates
  simp only [cex_run_ten]
  rfl

theorem cex_hc_pass :
    hc_pass cexOracles 1 cexPhaseV cexPhaseNil cexPhaseNil 0 =
      (2, bigList, ⟨true, true, true⟩) := by
  unfold hc_pass dynamic_phase
  simp only [cexPhaseV, cexPhaseNil, List.foldl_cons, List.foldl_nil, Bool.false_eq_true,
    if_false, cex_pcc_two]

/-- Witness for the amended claim C4 at concrete inputs. -/
theorem overflow_sets_flag_blocks_enqueue_and_fails_witness :
    (cexOracles.detect 0 cexCand = some cexColl ∧ bigList.length > MAX_CANDIDATES ∧
      (pcc_body cexOracles 1 true 0 cexCand bigList ⟨false, false, false⟩).2.2.overflow = true ∧
      (pcc_body cexOracles 1 true 0 cexCand bigList ⟨false, false, false⟩).2.1 = bigList) ∧
    ((⟨false, true, false⟩ : ProcessCollisionStatus).overflow = true ∧
      (pcc_loop cexOracles 1 true 5 0 [cexCand] [] ⟨false, true, false⟩ 0).2.2.1 = []) ∧
    ((hc_pass cexOracles 1 cexPhaseV cexPhaseNil cexPhaseNil 0).2.2.overflow = true ∧
      (handle_collisions cexOracles 1 cexPhaseV cexPhaseNil cexPhaseNil 0).2 = false) :=
  ⟨⟨rfl, cex_biglen,
      (overflow_sets_flag_blocks_enqueue_and_fails.1 Nat cexOracles 1 true 0 cexCand bigList
        ⟨false, false, false⟩ cexColl rfl cex_biglen).1,
      (overflow_sets_flag_blocks_enqueue_and_fails.1 Nat cexOracles 1 true 0 cexCand bigList
        ⟨false, false, false⟩ cexColl rfl cex_biglen).2⟩,
    ⟨rfl,
      overflow_sets_flag_blocks_enqueue_and_fails.2.1 Nat cexOracles 1 true 5 0 [cexCand] []
        ⟨false, true, false⟩ 0 rfl⟩,
    ⟨by rw [cex_hc_pass],
      overflow_sets_flag_blocks_enqueue_and_fails.2.2 Nat cexOracles 1 cexPhaseV cexPhaseNil
        cexPhaseNil 0 (by rw [cex_hc_pass])⟩⟩

/-- Claim C5: candidates whose primitives are all solid are filtered out —
both narrow-phase detectors report no collision for a solid–solid pair
(whatever the CCD oracle would say), and candidate regeneration after an
impulse generates nothing at all around a solid vertex. -/
theorem solid_solid_candidates_filtered :
    (∀ (edges : List Edge2) (vsolid : Nat → Bool) (ccd : SegSegCcd) (s : DynSurface)
        (cand : Vec3st),
        edge_is_solid vsolid (sortEdge (edges.getD cand.a ⟨0, 0⟩)) = true →
        edge_is_solid vsolid (sortEdge (edges.getD cand.b ⟨0, 0⟩)) = true →
        detect_segment_segment_collision edges vsolid ccd s cand = none) ∧
    (∀ (tris : List Tri3) (vsolid : Nat → Bool) (ccd : PointTriCcd) (s : DynSurface)
        (cand : Vec3st),
        triangle_is_solid vsolid (tris.getD cand.a ⟨0, 0, 0⟩) = true →
        vsolid cand.b = true →
        detect_point_triangle_collision tris vsolid ccd s cand = none) ∧
    (∀ (vsolid : Nat → Bool) (pc tc ec : Nat → List Vec3st) (v2t v2e : Nat → List Nat)
        (v : Nat), vsolid v = true →
        add_point_update_candidates vsolid pc tc ec v2t v2e v = []) := by
  refine ⟨?_, ?_, ?_⟩
  · intro edges vsolid ccd s cand h0 h1
    unfold detect_segment_segment_collision
    simp only [h0, h1, Bool.and_self]
    split
    · rfl
    · split
      · rfl
      · split
        · rfl
        · simp
  · intro tris vsolid ccd s cand h0 h1
    unfold detect_point_triangle_collision
    simp only [h0, h1, Bool.and_self]
    split
    · rfl
    · simp
  · intro vsolid pc tc ec v2t v2e v h
    unfold add_point_update_candidates
    simp [h]

/-- Witness for claim C5 at a concrete fully solid configuration. -/
theorem solid_solid_candidates_filtered_witness :
    (edge_is_solid (fun _ => true)
        (sortEdge (([⟨0, 1⟩, ⟨2, 3⟩] : List Edge2).getD (0 : Nat) ⟨0, 0⟩)) = true ∧
      edge_is_solid (fun _ => true)
        (sortEdge (([⟨0, 1⟩, ⟨2, 3⟩] : List Edge2).getD (1 : Nat) ⟨0, 0⟩)) = true ∧
      detect_segment_segment_collision [⟨0, 1⟩, ⟨2, 3⟩] (fun _ => true)
        (fun _ _ _ _ _ _ _ _ => none) ⟨[], [], [], []⟩ ⟨0, 1, 1⟩ = none) ∧
    (triangle_is_solid (fun _ => true) (([⟨0, 1, 2⟩] : List Tri3).getD (0 : Nat) ⟨0, 0, 0⟩) =
        true ∧
      (fun (_ : Nat) => true) 3 = true ∧
      detect_point_triangle_collision [⟨0, 1, 2⟩] (fun _ => true)
        (fun _ _ _ _ _ _ _ _ => none) ⟨[], [], [], []⟩ ⟨0, 3, 0⟩ = none) ∧
    ((fun (_ : Nat) => true) 0 = true ∧
      add_point_update_candidates (fun _ => true) (fun _ => [cexCand]) (fun _ => [cexCand])
        (fun _ => [cexCand]) (fun _ => [0]) (fun _ => [0]) 0 = []) :=
  ⟨⟨rfl, rfl,
      solid_solid_candidates_filtered.1 [⟨0, 1⟩, ⟨2, 3⟩] (fun _ => true)
        (fun _ _ _ _ _ _ _ _ => none) ⟨[], [], [], []⟩ ⟨0, 1, 1⟩ rfl rfl⟩,
    ⟨rfl, rfl,
      solid_solid_candidates_filtered.2.1 [⟨0, 1, 2⟩] (fun _ => true)
        (fun _ _ _ _ _ _ _ _ => none) ⟨[], [], [], []⟩ ⟨0, 3, 0⟩ rfl rfl⟩,
    ⟨rfl,
      solid_solid_candidates_filtered.2.2 (fun _ => true) (fun _ => [cexCand])
        (fun _ => [cexCand]) (fun _ => [cexCand]) (fun _ => [0]) (fun _ => [0]) 0 rfl⟩⟩

/-- Claim C2: in the proximity pass, for a candidate whose primitives share no
vertex (and are non-degenerate), with the proximity query returning distance
`d`, barycentric weights and an outward contact normal (`0 ≤ normal·diff`, as
the specification's outward normal guarantees), a repulsive impulse is applied
exactly when `d < proximity_epsilon` and the normal relative velocity is at
most the threshold `0.1·(ε−d)/dt`; the applied magnitude then equals
`min(max(0, 0.1·(ε−d)/dt − v_rel), k·dt·(ε−d))` with `k = 10`; and a distance
exactly equal to `proximity_epsilon` yields no impulse.  Both candidate kinds
are covered. -/
theorem process_proximity_impulse_characterization :
    (∀ (eps dt distance s0 s2 : ℚ) (normal : Vec3q) (edges : List Edge2)
        (s : DynSurface) (cand : Vec3st) (relvel : ℚ),
        (edges.getD cand.a ⟨0, 0⟩).e0 ≠ (edges.getD cand.a ⟨0, 0⟩).e1 →
        (edges.getD cand.b ⟨0, 0⟩).e0 ≠ (edges.getD cand.b ⟨0, 0⟩).e1 →
        ((edges.getD cand.a ⟨0, 0⟩).e0 ≠ (edges.getD cand.b ⟨0, 0⟩).e0 ∧
          (edges.getD cand.a ⟨0, 0⟩).e0 ≠ (edges.getD cand.b ⟨0, 0⟩).e1 ∧
          (edges.getD cand.a ⟨0, 0⟩).e1 ≠ (edges.getD cand.b ⟨0, 0⟩).e0 ∧
          (edges.getD cand.a ⟨0, 0⟩).e1 ≠ (edges.getD cand.b ⟨0, 0⟩).e1) →
        relvel = dot3 normal
          (s0 • get_velocity s (edges.getD cand.a ⟨0, 0⟩).e0 +
            (1 - s0) • get_velocity s (edges.getD cand.a ⟨0, 0⟩).e1 -
            s2 • get_velocity s (edges.getD cand.b ⟨0, 0⟩).e0 -
            (1 - s2) • get_velocity s (edges.getD cand.b ⟨0, 0⟩).e1) →
        0 ≤ dot3 normal
          (s0 • get_position s (edges.getD cand.a ⟨0, 0⟩).e0 +
            (1 - s0) • get_position s (edges.getD cand.a ⟨0, 0⟩).e1 -
            s2 • get_position s (edges.getD cand.b ⟨0, 0⟩).e0 -
            (1 - s2) • get_position s (edges.getD cand.b ⟨0, 0⟩).e1) →
        ((process_proximity_edge_edge eps dt edges (fun _ _ _ _ => (distance, s0, s2, normal))
              s cand ≠ none ↔
            distance < eps ∧ relvel ≤ 1 / 10 * (eps - distance) / dt) ∧
          (∀ (coll : Collision) (m : ℚ),
            process_proximity_edge_edge eps dt edges (fun _ _ _ _ => (distance, s0, s2, normal))
                s cand = some (coll, m) →
            m = min (max 0 (1 / 10 * (eps - distance) / dt - relvel))
              (proximity_k * dt * (eps - distance))) ∧
          (distance = eps →
            process_proximity_edge_edge eps dt edges (fun _ _ _ _ => (distance, s0, s2, normal))
              s cand = none))) ∧
    (∀ (eps dt distance s1 s2 s3 : ℚ) (normal : Vec3q) (tris : List Tri3)
        (s : DynSurface) (cand : Vec3st) (relvel : ℚ),
        ((tris.getD cand.a ⟨0, 0, 0⟩).v0 ≠ cand.b ∧
          (tris.getD cand.a ⟨0, 0, 0⟩).v1 ≠ cand.b ∧
          (tris.getD cand.a ⟨0, 0, 0⟩).v2 ≠ cand.b) →
        relvel = dot3 normal
          (get_velocity s cand.b -
            (s1 • get_velocity s (tris.getD cand.a ⟨0, 0, 0⟩).v0 +
              s2 • get_velocity s (tris.getD cand.a ⟨0, 0, 0⟩).v1 +
              s3 • get_velocity s (tris.getD cand.a ⟨0, 0, 0⟩).v2)) →
        0 ≤ dot3 normal
          (get_position s cand.b -
            (s1 • get_position s (tris.getD cand.a ⟨0, 0, 0⟩).v0 +
              s2 • get_position s (tris.getD cand.a ⟨0, 0, 0⟩).v1 +
              s3 • get_position s (tris.getD cand.a ⟨0, 0, 0⟩).v2)) →
        ((process_proximity_point_triangle eps dt tris
              (fun _ _ _ _ => (distance, s1, s2, s3, normal)) s cand ≠ none ↔
            distance < eps ∧ relvel ≤ 1 / 10 * (eps - distance) / dt) ∧
          (∀ (coll : Collision) (m : ℚ),
            process_proximity_point_triangle eps dt tris
                (fun _ _ _ _ => (distance, s1, s2, s3, normal)) s cand = some (coll, m) →
            m = min (max 0 (1 / 10 * (eps - distance) / dt - relvel))
              (proximity_k * dt * (eps - distance))) ∧
          (distance = eps →
            process_proximity_point_triangle eps dt tris
              (fun _ _ _ _ => (distance, s1, s2, s3, normal)) s cand = none))) := by
  constructor
  · intro eps dt distance s0 s2 normal edges s cand relvel hd0 hd1 hshare hrel hdot
    unfold process_proximity_edge_edge
    simp only [if_neg hd0, if_neg hd1, if_pos hshare]
    rw [← hrel]
    by_cases hlt : distance < eps
    · rw [if_pos hlt, if_neg (not_lt.mpr hdot)]
      by_cases hrv : relvel > 1 / 10 * (eps - distance) / dt
      · rw [if_pos hrv]
        exact ⟨iff_of_false (by simp) (fun hc => absurd hc.2 (not_le.mpr hrv)), by simp,
          fun he => rfl⟩
      · rw [if_neg hrv]
        refine ⟨iff_of_true (by simp) ⟨hlt, not_lt.mp hrv⟩, ?_,
          fun he => absurd (he ▸ hlt) (lt_irrefl eps)⟩
        intro coll m hm
        have : m = min (max 0 (1 / 10 * (eps - distance) / dt - relvel))
            (dt * proximity_k * (eps - distance)) := by
          have := (Option.some.injEq _ _).mp hm
          exact (Prod.mk.injEq _ _ _ _).mp this |>.2.symm
        rw [this, mul_comm dt proximity_k]
    · rw [if_neg hlt]
      exact ⟨iff_of_false (by simp) (fun hc => absurd hc.1 hlt), by simp, fun _ => rfl⟩
  · intro eps dt distance s1 s2 s3 normal tris s cand relvel hinc hrel hdot
    unfold process_proximity_point_triangle
    simp only [if_pos hinc]
    rw [← hrel]
    by_cases hlt : distance < eps
    · rw [if_pos hlt, if_neg (not_lt.mpr hdot)]
      by_cases hrv : relvel > 1 / 10 * (eps - distance) / dt
      · rw [if_pos hrv]
        exact ⟨iff_of_false (by simp) (fun hc => absurd hc.2 (not_le.mpr hrv)), by simp,
          fun he => rfl⟩
      · rw [if_neg hrv]
        refine ⟨iff_of_true (by simp) ⟨hlt, not_lt.mp hrv⟩, ?_,
          fun he => absurd (he ▸ hlt) (lt_irrefl eps)⟩
        intro coll m hm
        have : m = min (max 0 (1 / 10 * (eps - distance) / dt - relvel))
            (dt * proximity_k * (eps - distance)) := by
          have := (Option.some.injEq _ _).mp hm
          exact (Prod.mk.injEq _ _ _ _).mp this |>.2.symm
        rw [this, mul_comm dt proximity_k]
    · rw [if_neg hlt]
      exact ⟨iff_of_false (by simp) (fun hc => absurd hc.1 hlt), by simp, fun _ => rfl⟩

/-- Witness for claim C2 at concrete geometry in both candidate kinds: an
impulse fires for a resting pair at distance 1/2 with threshold ε = 1. -/
theorem process_proximity_impulse_characterization_witness :
    process_proximity_edge_edge 1 1 [⟨0, 1⟩, ⟨2, 3⟩]
        (fun _ _ _ _ => (1/2, 1/2, 1/2, ⟨0, 0, -1⟩)) proxSurfEE ⟨0, 1, 1⟩ ≠ none ∧
    process_proximity_point_triangle 1 1 [⟨0, 1, 2⟩]
        (fun _ _ _ _ => (1/2, 1/3, 1/3, 1/3, ⟨0, 0, 1⟩)) proxSurfPT ⟨0, 3, 0⟩ ≠ none := by
  have ea : ([⟨0, 1⟩, ⟨2, 3⟩] : List Edge2).getD (⟨0, 1, 1⟩ : Vec3st).a ⟨0, 0⟩ = ⟨0, 1⟩ := rfl
  have eb : ([⟨0, 1⟩, ⟨2, 3⟩] : List Edge2).getD (⟨0, 1, 1⟩ : Vec3st).b ⟨0, 0⟩ = ⟨2, 3⟩ := rfl
  have tv : ([⟨0, 1, 2⟩] : List Tri3).getD (⟨0, 3, 0⟩ : Vec3st).a ⟨0, 0, 0⟩ = ⟨0, 1, 2⟩ := rfl
  have hv : ∀ i : Nat, i < 4 → get_velocity proxSurfEE i = v3zero := by decide
  have hw : ∀ i : Nat, i < 4 → get_velocity proxSurfPT i = v3zero := by decide
  have hp0 : get_position proxSurfEE 0 = ⟨0, 0, 0⟩ := rfl
  have hp1 : get_position proxSurfEE 1 = ⟨1, 0, 0⟩ := rfl
  have hp2 : get_position proxSurfEE 2 = ⟨0, 0, 1/2⟩ := rfl
  have hp3 : get_position proxSurfEE 3 = ⟨1, 0, 1/2⟩ := rfl
  have hq0 : get_position proxSurfPT 0 = ⟨0, 0, 0⟩ := rfl
  have hq1 : get_position proxSurfPT 1 = ⟨1, 0, 0⟩ := rfl
  have hq2 : get_position proxSurfPT 2 = ⟨0, 1, 0⟩ := rfl
  have hq3 : get_position proxSurfPT 3 = ⟨0, 0, 1/2⟩ := rfl
  constructor
  · exact (process_proximity_impulse_characterization.1 1 1 (1/2) (1/2) (1/2) ⟨0, 0, -1⟩
      [⟨0, 1⟩, ⟨2, 3⟩] proxSurfEE ⟨0, 1, 1⟩ 0 (by decide) (by decide) (by decide)
      (by rw [ea, eb]
          rw [hv 0 (by norm_num), hv 1 (by norm_num), hv 2 (by norm_num), hv 3 (by norm_num)]
          norm_num [dot3, v3zero])
      (by rw [ea, eb]
          rw [hp0, hp1, hp2, hp3]
          norm_num [dot3])).1.mpr ⟨by norm_num, by norm_num⟩
  · exact (process_proximity_impulse_characterization.2 1 1 (1/2) (1/3) (1/3) (1/3) ⟨0, 0, 1⟩
      [⟨0, 1, 2⟩] proxSurfPT ⟨0, 3, 0⟩ 0 (by decide)
      (by rw [tv]
          rw [show (⟨0, 3, 0⟩ : Vec3st).b = 3 from rfl,
            hw 0 (by norm_num), hw 1 (by norm_num), hw 2 (by norm_num), hw 3 (by norm_num)]
          norm_num [dot3, v3zero])
      (by rw [tv]
          rw [show (⟨0, 3, 0⟩ : Vec3st).b = 3 from rfl, hq0, hq1, hq2, hq3]
          norm_num [dot3])).1.mpr ⟨by norm_num, by norm_num⟩

theorem get_intersections_elim {tris : List Tri3} {edges : List Edge2}
    {ec : Nat → List Nat} {s : DynSurface} {deg new : Bool} {I : Intersection}
    (h : I ∈ get_intersections tris edges ec s deg new) :
    ¬((tris.getD I.m_triangle_index ⟨0, 0, 0⟩).v0 = (tris.getD I.m_triangle_index ⟨0, 0, 0⟩).v1 ∨
      (tris.getD I.m_triangle_index ⟨0, 0, 0⟩).v1 = (tris.getD I.m_triangle_index ⟨0, 0, 0⟩).v2 ∨
      (tris.getD I.m_triangle_index ⟨0, 0, 0⟩).v2 = (tris.getD I.m_triangle_index ⟨0, 0, 0⟩).v0) ∧
    (edges.getD I.m_edge_index ⟨0, 0⟩).e0 ≠ (edges.getD I.m_edge_index ⟨0, 0⟩).e1 ∧
    ¬((edges.getD I.m_edge_index ⟨0, 0⟩).e0 = (tris.getD I.m_triangle_index ⟨0, 0, 0⟩).v0 ∨
      (edges.getD I.m_edge_index ⟨0, 0⟩).e0 = (tris.getD I.m_triangle_index ⟨0, 0, 0⟩).v1 ∨
      (edges.getD I.m_edge_index ⟨0, 0⟩).e0 = (tris.getD I.m_triangle_index ⟨0, 0, 0⟩).v2 ∨
      (edges.getD I.m_edge_index ⟨0, 0⟩).e1 = (tris.getD I.m_triangle_index ⟨0, 0, 0⟩).v0 ∨
      (edges.getD I.m_edge_index ⟨0, 0⟩).e1 = (tris.getD I.m_triangle_index ⟨0, 0, 0⟩).v1 ∨
      (edges.getD I.m_edge_index ⟨0, 0⟩).e1 = (tris.getD I.m_triangle_index ⟨0, 0, 0⟩).v2) := by
  unfold get_intersections at h
  rw [List.mem_flatMap] at h
  obtain ⟨i, _, hin⟩ := h
  by_cases hdeg : (tris.getD i ⟨0, 0, 0⟩).v0 = (tris.getD i ⟨0, 0, 0⟩).v1 ∨
      (tris.getD i ⟨0, 0, 0⟩).v1 = (tris.getD i ⟨0, 0, 0⟩).v2 ∨
      (tris.getD i ⟨0, 0, 0⟩).v2 = (tris.getD i ⟨0, 0, 0⟩).v0
  · rw [if_pos hdeg] at hin
    exact absurd hin (List.not_mem_nil I)
  · rw [if_neg hdeg] at hin
    rw [List.mem_filterMap] at hin
    obtain ⟨j, _, hj⟩ := hin
    by_cases h1 : (edges.getD j ⟨0, 0⟩).e0 = (edges.getD j ⟨0, 0⟩).e1
    · rw [if_pos h1] at hj; exact absurd hj (by simp)
    · rw [if_neg h1] at hj
      by_cases h2 : (edges.getD j ⟨0, 0⟩).e0 = (tris.getD i ⟨0, 0, 0⟩).v0 ∨
          (edges.getD j ⟨0, 0⟩).e0 = (tris.getD i ⟨0, 0, 0⟩).v1 ∨
          (edges.getD j ⟨0, 0⟩).e0 = (tris.getD i ⟨0, 0, 0⟩).v2 ∨
          (edges.getD j ⟨0, 0⟩).e1 = (tris.getD i ⟨0, 0, 0⟩).v0 ∨
          (edges.getD j ⟨0, 0⟩).e1 = (tris.getD i ⟨0, 0, 0⟩).v1 ∨
          (edges.getD j ⟨0, 0⟩).e1 = (tris.getD i ⟨0, 0, 0⟩).v2
      · rw [if_pos h2] at hj; exact absurd hj (by simp)
      · rw [if_neg h2] at hj
        by_cases h3 : segment_triangle_intersection
            ((fun v => if new then get_newposition s v else get_position s v)
              (edges.getD j ⟨0, 0⟩).e0)
            ((fun v => if new then get_newposition s v else get_position s v)
              (edges.getD j ⟨0, 0⟩).e1)
            ((fun v => if new then get_newposition s v else get_position s v)
              (tris.getD i ⟨0, 0, 0⟩).v0)
            ((fun v => if new then get_newposition s v else get_position s v)
              (tris.getD i ⟨0, 0, 0⟩).v1)
            ((fun v => if new then get_newposition s v else get_position s v)
              (tris.getD i ⟨0, 0, 0⟩).v2) deg = true
        · rw [if_pos h3] at hj
          have hI : I = ⟨j, i⟩ := by
            have := Option.some.injEq (⟨j, i⟩ : Intersection) I |>.mp hj
            exact this.symm
          subst hI
          exact ⟨hdeg, h1, h2⟩
        · rw [if_neg h3] at hj; exact absurd hj (by simp)

theorem audit_eval_pierce :
    get_intersections [⟨0, 1, 2⟩] [⟨3, 4⟩] (fun _ => [0]) auditSurf true false =
      [⟨0, 0⟩] := by
  norm_num [get_intersections, List.range_succ, segment_triangle_intersection, orient3d,
    get_position, List.getD_nil, v3zero, auditSurf, List.filterMap_cons, List.getD,
    List.getElem?_cons_zero, Option.getD_some]

/-- Claim C6: the intersection audit never reports an incident edge–triangle
pair — for every recorded `Intersection`, the two endpoints of the recorded
edge are disjoint from the three vertices of the recorded triangle (for any
mesh, any positions, any broad-phase oracle, either flag). -/
theorem get_intersections_non_incident
    (tris : List Tri3) (edges : List Edge2) (ec : Nat → List Nat) (s : DynSurface)
    (deg new : Bool) (I : Intersection)
    (h : I ∈ get_intersections tris edges ec s deg new) :
    (edges.getD I.m_edge_index ⟨0, 0⟩).e0 ≠ (tris.getD I.m_triangle_index ⟨0, 0, 0⟩).v0 ∧
    (edges.getD I.m_edge_index ⟨0, 0⟩).e0 ≠ (tris.getD I.m_triangle_index ⟨0, 0, 0⟩).v1 ∧
    (edges.getD I.m_edge_index ⟨0, 0⟩).e0 ≠ (tris.getD I.m_triangle_index ⟨0, 0, 0⟩).v2 ∧
    (edges.getD I.m_edge_index ⟨0, 0⟩).e1 ≠ (tris.getD I.m_triangle_index ⟨0, 0, 0⟩).v0 ∧
    (edges.getD I.m_edge_index ⟨0, 0⟩).e1 ≠ (tris.getD I.m_triangle_index ⟨0, 0, 0⟩).v1 ∧
    (edges.getD I.m_edge_index ⟨0, 0⟩).e1 ≠ (tris.getD I.m_triangle_index ⟨0, 0, 0⟩).v2 := by
  have := (get_intersections_elim h).2.2
  push_neg at this
  exact this

/-- Witness for claim C6: a run of the audit that actually records an
intersection, at which the recorded pair is non-incident. -/
theorem get_intersections_non_incident_witness :
    (⟨0, 0⟩ : Intersection) ∈
      get_intersections [⟨0, 1, 2⟩] [⟨3, 4⟩] (fun _ => [0]) auditSurf true false ∧
    (([⟨3, 4⟩] : List Edge2).getD 0 ⟨0, 0⟩).e0 ≠ (([⟨0, 1, 2⟩] : List Tri3).getD 0 ⟨0, 0, 0⟩).v0 :=
  have hm : (⟨0, 0⟩ : Intersection) ∈
      get_intersections [⟨0, 1, 2⟩] [⟨3, 4⟩] (fun _ => [0]) auditSurf true false := by
    rw [audit_eval_pierce]; exact List.mem_singleton.mpr rfl
  ⟨hm, (get_intersections_non_incident [⟨0, 1, 2⟩] [⟨3, 4⟩] (fun _ => [0]) auditSurf
    true false ⟨0, 0⟩ hm).1⟩

/-- Claim C7 as stated is false on the code: a degenerate triangle present in
the mesh is not flagged by the intersection audit — the audit skips it as a
removal sentinel and reports nothing, even with degeneracy counting as
intersection. -/
theorem degenerate_triangle_audit_silent :
    (⟨0, 1, 1⟩ : Tri3).v1 = (⟨0, 1, 1⟩ : Tri3).v2 ∧
    get_intersections [⟨0, 1, 1⟩] [⟨0, 1⟩] (fun _ => [0]) auditSurf true false = [] := by
  refine ⟨rfl, ?_⟩
  norm_num [get_intersections, List.range_succ]

/-- Claim C7 (amended): the audit skips degenerate triangles and degenerate
edges rather than flagging them — every recorded `Intersection` involves a
triangle with three pairwise-distinct vertex slots and an edge with distinct
endpoints. -/
theorem audit_reports_only_nondegenerate
    (tris : List Tri3) (edges : List Edge2) (ec : Nat → List Nat) (s : DynSurface)
    (deg new : Bool) (I : Intersection)
    (h : I ∈ get_intersections tris edges ec s deg new) :
    (tris.getD I.m_triangle_index ⟨0, 0, 0⟩).v0 ≠ (tris.getD I.m_triangle_index ⟨0, 0, 0⟩).v1 ∧
    (tris.getD I.m_triangle_index ⟨0, 0, 0⟩).v1 ≠ (tris.getD I.m_triangle_index ⟨0, 0, 0⟩).v2 ∧
    (tris.getD I.m_triangle_index ⟨0, 0, 0⟩).v2 ≠ (tris.getD I.m_triangle_index ⟨0, 0, 0⟩).v0 ∧
    (edges.getD I.m_edge_index ⟨0, 0⟩).e0 ≠ (edges.getD I.m_edge_index ⟨0, 0⟩).e1 := by
  obtain ⟨hdeg, he, _⟩ := get_intersections_elim h
  push_neg at hdeg
  exact ⟨hdeg.1, hdeg.2.1, hdeg.2.2, he⟩

/-- Witness for claim C7's amended form at a run with a recorded
intersection. -/
theorem audit_reports_only_nondegenerate_witness :
    (⟨0, 0⟩ : Intersection) ∈
      get_intersections [⟨0, 1, 2⟩] [⟨3, 4⟩] (fun _ => [0]) auditSurf true false ∧
    (([⟨0, 1, 2⟩] : List Tri3).getD 0 ⟨0, 0, 0⟩).v0 ≠
      (([⟨0, 1, 2⟩] : List Tri3).getD 0 ⟨0, 0, 0⟩).v1 :=
  have hm : (⟨0, 0⟩ : Intersection) ∈
      get_intersections [⟨0, 1, 2⟩] [⟨3, 4⟩] (fun _ => [0]) auditSurf true false := by
    rw [audit_eval_pierce]; exact List.mem_singleton.mpr rfl
  ⟨hm, (audit_reports_only_nondegenerate [⟨0, 1, 2⟩] [⟨3, 4⟩] (fun _ => [0]) auditSurf
    true false ⟨0, 0⟩ hm).1⟩

theorem getD_set_ne {α : Type} (l : List α) (n i : Nat) (a d : α) (h : i ≠ n) :
    (l.set n a).getD i d = l.getD i d := by
  simp [List.getD, List.getElem?_set_ne (Ne.symm h)]

theorem getD_set_self {α : Type} (l : List α) (n : Nat) (a d : α) (h : n < l.length) :
    (l.set n a).getD n d = a := by
  simp [List.getD, List.getElem?_set_self, h]

theorem getD_append_left {α : Type} (l l' : List α) (i : Nat) (d : α) (h : i < l.length) :
    (l ++ l').getD i d = l.getD i d := by
  simp [List.getD, List.getElem?_append_left h]

theorem getD_append_self {α : Type} (l : List α) (a d : α) :
    (l ++ [a]).getD l.length d = a := by
  simp [List.getD, List.getElem?_append_right (Nat.le_refl l.length)]

theorem pinch_component_base (dx : ℚ) (vi : Nat) (s : SurfTrack) (comp : List Nat)
    (ha : st_aligned s) :
    st_aligned (pinch_component dx vi s comp).1 ∧
    (pinch_component dx vi s comp).1.positions.length = s.positions.length + 1 ∧
    (pinch_component dx vi s comp).2.1 = s.positions.length ∧
    (pinch_component dx vi s comp).1.triangles = s.triangles ∧
    (∀ i, i < s.positions.length →
      (pinch_component dx vi s comp).1.positions.getD i v3zero = s.positions.getD i v3zero ∧
      (pinch_component dx vi s comp).1.newpositions.getD i v3zero =
        s.newpositions.getD i v3zero ∧
      (pinch_component dx vi s comp).1.masses.getD i 0 = s.masses.getD i 0 ∧
      (pinch_component dx vi s comp).1.vertex_deleted.getD i false =
        s.vertex_deleted.getD i false) := by
  obtain ⟨hn, hm, hd⟩ := ha
  unfold pinch_component add_vertex set_position set_newposition
  simp only [List.length_append, List.length_set, List.length_cons, List.length_nil]
  refine ⟨⟨by simp [hn], by simp [hm], by simp [hd]⟩, by trivial, by trivial, by trivial, ?_⟩
  intro i hi
  have hne : i ≠ s.positions.length := Nat.ne_of_lt hi
  refine ⟨?_, ?_, ?_, ?_⟩
  · rw [getD_set_ne _ _ _ _ _ hne, getD_append_left _ _ _ _ hi]
  · rw [getD_set_ne _ _ _ _ _ hne, getD_append_left _ _ _ _ (hn ▸ hi)]
  · rw [getD_append_left _ _ _ _ (hm ▸ hi)]
  · rw [getD_append_left _ _ _ _ (hd ▸ hi)]

theorem pull_apart_loop_base (dx : ℚ) (vi : Nat) :
    ∀ (comps : List (List Nat)) (s : SurfTrack), st_aligned s →
      st_aligned (pull_apart_loop dx vi s comps).1 ∧
      (pull_apart_loop dx vi s comps).1.positions.length =
        s.positions.length + comps.length ∧
      (pull_apart_loop dx vi s comps).2.1 = List.range' s.positions.length comps.length ∧
      (pull_apart_loop dx vi s comps).1.triangles = s.triangles ∧
      (∀ i, i < s.positions.length →
        (pull_apart_loop dx vi s comps).1.positions.getD i v3zero =
          s.positions.getD i v3zero ∧
        (pull_apart_loop dx vi s comps).1.newpositions.getD i v3zero =
          s.newpositions.getD i v3zero ∧
        (pull_apart_loop dx vi s comps).1.masses.getD i 0 = s.masses.getD i 0 ∧
        (pull_apart_loop dx vi s comps).1.vertex_deleted.getD i false =
          s.vertex_deleted.getD i false) := by
  intro comps
  induction comps with
  | nil =>
      intro s ha
      exact ⟨ha, by simp [pull_apart_loop], by simp [pull_apart_loop], rfl,
        fun i _ => ⟨rfl, rfl, rfl, rfl⟩⟩
  | cons comp rest ih =>
      intro s ha
      have hc := pinch_component_base dx vi s comp ha
      have hr := ih (pinch_component dx vi s comp).1 hc.1
      rw [pull_apart_loop]
      refine ⟨hr.1, ?_, ?_, ?_, ?_⟩
      · rw [hr.2.1, hc.2.1]
        simp [Nat.add_assoc, Nat.add_comm 1 rest.length]
      · rw [List.length_cons, List.range'_succ]
        refine congrArg₂ List.cons hc.2.2.1 ?_
        rw [hr.2.2.1, hc.2.1]
      · rw [hr.2.2.2.1, hc.2.2.2.1]
      · intro i hi
        have hi1 : i < (pinch_component dx vi s comp).1.positions.length := by
          rw [hc.2.1]; exact Nat.lt_succ_of_lt hi
        have h1 := hr.2.2.2.2 i hi1
        have h2 := hc.2.2.2.2 i hi
        exact ⟨h1.1.trans h2.1, h1.2.1.trans h2.2.1, h1.2.2.1.trans h2.2.2.1,
          h1.2.2.2.trans h2.2.2.2⟩

theorem remove_fold_keeps (va : List Nat) :
    ∀ (s : SurfTrack),
      (va.foldl (fun acc v => remove_vertex acc v) s).positions = s.positions ∧
      (va.foldl (fun acc v => remove_vertex acc v) s).newpositions = s.newpositions ∧
      (va.foldl (fun acc v => remove_vertex acc v) s).masses = s.masses ∧
      (va.foldl (fun acc v => remove_vertex acc v) s).triangles = s.triangles ∧
      (va.foldl (fun acc v => remove_vertex acc v) s).vertex_deleted.length =
        s.vertex_deleted.length ∧
      (∀ i, i ∉ va →
        (va.foldl (fun acc v => remove_vertex acc v) s).vertex_deleted.getD i false =
          s.vertex_deleted.getD i false) ∧
      (∀ i ∈ va, i < s.vertex_deleted.length →
        (va.foldl (fun acc v => remove_vertex acc v) s).vertex_deleted.getD i false =
          true) := by
  induction va with
  | nil => intro s; exact ⟨rfl, rfl, rfl, rfl, rfl, fun _ _ => rfl, fun i h => absurd h (by simp)⟩
  | cons v rest ih =>
      intro s
      have hr := ih (remove_vertex s v)
      rw [List.foldl_cons]
      refine ⟨hr.1, hr.2.1, hr.2.2.1, hr.2.2.2.1, ?_, ?_, ?_⟩
      · rw [hr.2.2.2.2.1]; simp [remove_vertex]
      · intro i hi
        have hiv : i ≠ v := fun h => hi (h ▸ List.mem_cons_self v rest)
        have hirest : i ∉ rest := fun h => hi (List.mem_cons_of_mem v h)
        rw [hr.2.2.2.2.2.1 i hirest]
        exact getD_set_ne _ _ _ _ _ hiv
      · intro i hi hlen
        rcases List.mem_cons.mp hi with h | h
        · by_cases hrest : i ∈ rest
          · exact hr.2.2.2.2.2.2 i hrest (by simp [remove_vertex]; exact hlen)
          · rw [hr.2.2.2.2.2.1 i hrest]
            subst h
            exact getD_set_self _ _ _ _ hlen
        · exact hr.2.2.2.2.2.2 i h (by simp [remove_vertex]; exact hlen)

/-- Claim C1: when collision safety is on and the pincher's collision check
fails, `pull_apart_vertex` aborts: it returns `false`, the triangle table is
untouched (no triangle added or deleted), every vertex it added is tombstoned,
and the observable surface state — the set of live vertex slots with their
positions, predicted positions and masses — is exactly what it was before the
call. -/
theorem pull_apart_vertex_abort_restores_state
    (eps : ℚ) (cs : Bool) (bp : SurfTrack → Tri3 → List Nat)
    (tt : Tri3 → Tri3 → List Vec3q → Bool) (s : SurfTrack) (vi : Nat)
    (comps : List (List Nat)) (ha : st_aligned s)
    (hc : pull_apart_collision_occurs eps cs bp tt s vi comps = true) :
    (pull_apart_vertex eps cs bp tt s vi comps).2 = false ∧
    (pull_apart_vertex eps cs bp tt s vi comps).1.triangles = s.triangles ∧
    live_vertex_data (pull_apart_vertex eps cs bp tt s vi comps).1 = live_vertex_data s ∧
    (∀ v ∈ (pull_apart_prepare eps s vi comps).2.1,
      (pull_apart_vertex eps cs bp tt s vi comps).1.vertex_deleted.getD v false = true) := by
  have hres : pull_apart_vertex eps cs bp tt s vi comps =
      ((pull_apart_prepare eps s vi comps).2.1.foldl (fun acc v => remove_vertex acc v)
        (pull_apart_prepare eps s vi comps).1, false) := by
    unfold pull_apart_vertex
    rw [hc]
    simp
  have hfst : (pull_apart_vertex eps cs bp tt s vi comps).1 =
      (pull_apart_prepare eps s vi comps).2.1.foldl (fun acc v => remove_vertex acc v)
        (pull_apart_prepare eps s vi comps).1 := by rw [hres]
  have hsnd : (pull_apart_vertex eps cs bp tt s vi comps).2 = false := by rw [hres]
  set K := (comps.take (comps.length - 1)).length with hK
  set L := s.positions.length with hL
  have hloop := pull_apart_loop_base (10 * eps) vi (comps.take (comps.length - 1)) s ha
  have hprep1 : (pull_apart_prepare eps s vi comps).1 =
      (pull_apart_loop (10 * eps) vi s (comps.take (comps.length - 1))).1 := rfl
  have hprepva : (pull_apart_prepare eps s vi comps).2.1 = List.range' L K := by
    rw [show (pull_apart_prepare eps s vi comps).2.1 =
      (pull_apart_loop (10 * eps) vi s (comps.take (comps.length - 1))).2.1 from rfl]
    exact hloop.2.2.1
  have hrb := remove_fold_keeps (pull_apart_prepare eps s vi comps).2.1
    (pull_apart_prepare eps s vi comps).1
  have hvanotlt : ∀ i, i < L → i ∉ (pull_apart_prepare eps s vi comps).2.1 := by
    intro i hi hmem
    rw [hprepva] at hmem
    obtain ⟨k, _, hk⟩ := List.mem_range'.mp hmem
    omega
  have hdellen : (pull_apart_prepare eps s vi comps).1.vertex_deleted.length = L + K := by
    rw [hprep1, hloop.1.2.2, hloop.2.1]
  refine ⟨hsnd, ?_, ?_, ?_⟩
  · rw [hfst, hrb.2.2.2.1, hprep1, hloop.2.2.2.1]
  · rw [hfst]
    unfold live_vertex_data
    rw [show ((pull_apart_prepare eps s vi comps).2.1.foldl (fun acc v => remove_vertex acc v)
        (pull_apart_prepare eps s vi comps).1).positions.length = L + K from by
      rw [hrb.1, hprep1, hloop.2.1]]
    rw [List.range_add, List.filterMap_append]
    refine Eq.trans (congrArg₂ (fun a b => a ++ b) ?_ ?_) (List.append_nil _)
    · apply List.filterMap_congr
      intro i hi
      have hiL : i < L := List.mem_range.mp hi
      have hnot := hvanotlt i hiL
      have hpre := hloop.2.2.2.2 i hiL
      have e1 : ((pull_apart_prepare eps s vi comps).2.1.foldl
          (fun acc v => remove_vertex acc v)
          (pull_apart_prepare eps s vi comps).1).vertex_deleted.getD i false =
          s.vertex_deleted.getD i false := by
        rw [hrb.2.2.2.2.2.1 i hnot, hprep1]
        exact hpre.2.2.2
      have e2 : ((pull_apart_prepare eps s vi comps).2.1.foldl
          (fun acc v => remove_vertex acc v)
          (pull_apart_prepare eps s vi comps).1).positions.getD i v3zero =
          s.positions.getD i v3zero := by
        rw [hrb.1, hprep1]
        exact hpre.1
      have e3 : ((pull_apart_prepare eps s vi comps).2.1.foldl
          (fun acc v => remove_vertex acc v)
          (pull_apart_prepare eps s vi comps).1).newpositions.getD i v3zero =
          s.newpositions.getD i v3zero := by
        rw [hrb.2.1, hprep1]
        exact hpre.2.1
      have e4 : ((pull_apart_prepare eps s vi comps).2.1.foldl
          (fun acc v => remove_vertex acc v)
          (pull_apart_prepare eps s vi comps).1).masses.getD i 0 =
          s.masses.getD i 0 := by
        rw [hrb.2.2.1, hprep1]
        exact hpre.2.2.1
      rw [e1, e2, e3, e4]
    · rw [List.filterMap_eq_nil_iff]
      intro i hi
      obtain ⟨k, hk, hik⟩ := List.mem_map.mp hi
      have hkK : k < K := List.mem_range.mp hk
      have hmem : i ∈ (pull_apart_prepare eps s vi comps).2.1 := by
        rw [hprepva, List.mem_range']
        exact ⟨k, hkK, by omega⟩
      rw [hrb.2.2.2.2.2.2 i hmem (by rw [hdellen]; omega)]
      simp
  · intro v hv
    rw [hfst]
    have hvlt : v < (pull_apart_prepare eps s vi comps).1.vertex_deleted.length := by
      rw [hdellen]
      rw [hprepva, List.mem_range'] at hv
      obtain ⟨k, hk, hvk⟩ := hv
      omega
    have hv' : v ∈ (pull_apart_prepare eps s vi comps).2.1 := by assumption
    exact hrb.2.2.2.2.2.2 v hv' hvlt

/-- Witness for claim C1 at a concrete failing collision check. -/
theorem pull_apart_vertex_abort_restores_state_witness :
    st_aligned pinchSurf ∧
    pull_apart_collision_occurs 0 true pinchBp pinchTt pinchSurf 0 [[0], [1]] = true ∧
    (pull_apart_vertex 0 true pinchBp pinchTt pinchSurf 0 [[0], [1]]).2 = false ∧
    (pull_apart_vertex 0 true pinchBp pinchTt pinchSurf 0 [[0], [1]]).1.triangles =
      pinchSurf.triangles :=
  have ha : st_aligned pinchSurf := ⟨rfl, rfl, rfl⟩
  have hc : pull_apart_collision_occurs 0 true pinchBp pinchTt pinchSurf 0 [[0], [1]] =
      true := rfl
  ⟨ha, hc,
    (pull_apart_vertex_abort_restores_state 0 true pinchBp pinchTt pinchSurf 0 [[0], [1]]
      ha hc).1,
    (pull_apart_vertex_abort_restores_state 0 true pinchBp pinchTt pinchSurf 0 [[0], [1]]
      ha hc).2.1⟩

theorem pinch_subst_snd (vi dup : Nat) (tri : Tri3) (s : SurfTrack) :
    (pinch_subst vi dup tri s).2 = pinch_other_sum vi tri s := by
  unfold pinch_subst pinch_other_sum
  by_cases h0 : tri.v0 = vi <;> by_cases h1 : tri.v1 = vi <;> by_cases h2 : tri.v2 = vi <;>
    simp [h0, h1, h2]

theorem foldl_pair_fst {β : Type} (F : Nat → Vec3q) (G : Nat → β → β) :
    ∀ (comp : List Nat) (c : Vec3q) (l : β),
      (comp.foldl (fun (a : Vec3q × β) t => (a.1 + F t, G t a.2)) (c, l)).1 =
        comp.foldl (fun a t => a + F t) c := by
  intro comp
  induction comp with
  | nil => intro c l; rfl
  | cons t rest ih => intro c l; rw [List.foldl_cons, List.foldl_cons]; exact ih _ _

theorem foldl_add_congr (F G : Nat → Vec3q) :
    ∀ (comp : List Nat), (∀ t ∈ comp, F t = G t) →
      ∀ (c : Vec3q), comp.foldl (fun a t => a + F t) c = comp.foldl (fun a t => a + G t) c := by
  intro comp
  induction comp with
  | nil => intro _ c; rfl
  | cons t rest ih =>
      intro h c
      rw [List.foldl_cons, List.foldl_cons, h t (List.mem_cons_self t rest)]
      exact ih (fun u hu => h u (List.mem_cons_of_mem t hu)) _

theorem pinch_other_sum_congr (vi : Nat) (tri : Tri3) (s s' : SurfTrack) (L0 : Nat)
    (hpos : ∀ i, i < L0 → st_get_position s' i = st_get_position s i)
    (h0 : tri.v0 < L0) (h1 : tri.v1 < L0) (h2 : tri.v2 < L0) :
    pinch_other_sum vi tri s' = pinch_other_sum vi tri s := by
  unfold pinch_other_sum
  rw [show (if tri.v0 = vi then v3zero else st_get_position s' tri.v0) =
      (if tri.v0 = vi then v3zero else st_get_position s tri.v0) from by
    by_cases h : tri.v0 = vi <;> simp [h, hpos _ h0]]
  rw [show (if tri.v1 = vi then v3zero else st_get_position s' tri.v1) =
      (if tri.v1 = vi then v3zero else st_get_position s tri.v1) from by
    by_cases h : tri.v1 = vi <;> simp [h, hpos _ h1]]
  rw [show (if tri.v2 = vi then v3zero else st_get_position s' tri.v2) =
      (if tri.v2 = vi then v3zero else st_get_position s tri.v2) from by
    by_cases h : tri.v2 = vi <;> simp [h, hpos _ h2]]

theorem pinch_centroid_congr (s s' : SurfTrack) (vi : Nat) (comp : List Nat) (L0 : Nat)
    (htr : s'.triangles = s.triangles)
    (hpos : ∀ i, i < L0 → st_get_position s' i = st_get_position s i)
    (hok : ∀ t ∈ comp, (s.triangles.getD t ⟨0, 0, 0⟩).v0 < L0 ∧
      (s.triangles.getD t ⟨0, 0, 0⟩).v1 < L0 ∧ (s.triangles.getD t ⟨0, 0, 0⟩).v2 < L0) :
    pinch_centroid s' vi comp = pinch_centroid s vi comp := by
  unfold pinch_centroid
  rw [htr]
  refine congrArg _ ?_
  apply foldl_add_congr
  intro t ht
  exact pinch_other_sum_congr vi _ s s' L0 hpos (hok t ht).1 (hok t ht).2.1 (hok t ht).2.2

theorem pinch_component_pos (dx : ℚ) (vi : Nat) (s : SurfTrack) (comp : List Nat)
    (hcomp : ∀ t ∈ comp, tri_ok s t) :
    (pinch_component dx vi s comp).1.positions.getD s.positions.length v3zero =
      (1 - dx) • st_get_position s vi + dx • pinch_centroid s vi comp := by
  have hq : (pinch_component dx vi s comp).1.positions =
      (add_vertex s (st_get_position s vi) (s.masses.getD vi 0)).1.positions.set
        s.positions.length
        ((1 - dx) • st_get_position
            (add_vertex s (st_get_position s vi) (s.masses.getD vi 0)).1 s.positions.length +
          dx • ((1 / ((comp.length : ℚ) * 2)) •
            (comp.foldl
              (fun (a : Vec3q × List Tri3) t =>
                (a.1 + (pinch_subst vi s.positions.length
                  ((add_vertex s (st_get_position s vi) (s.masses.getD vi 0)).1.triangles.getD
                    t ⟨0, 0, 0⟩)
                  (add_vertex s (st_get_position s vi) (s.masses.getD vi 0)).1).2,
                  a.2 ++ [(pinch_subst vi s.positions.length
                    ((add_vertex s (st_get_position s vi)
                      (s.masses.getD vi 0)).1.triangles.getD t ⟨0, 0, 0⟩)
                    (add_vertex s (st_get_position s vi) (s.masses.getD vi 0)).1).1]))
              (v3zero, [])).1)) := rfl
  have hlen1 : s.positions.length <
      (add_vertex s (st_get_position s vi) (s.masses.getD vi 0)).1.positions.length := by
    simp [add_vertex]
  rw [hq, getD_set_self _ _ _ _ hlen1]
  have hp : st_get_position (add_vertex s (st_get_position s vi) (s.masses.getD vi 0)).1
      s.positions.length = st_get_position s vi := by
    show (s.positions ++ [st_get_position s vi]).getD s.positions.length v3zero = _
    exact getD_append_self _ _ _
  have hpos1 : ∀ i, i < s.positions.length →
      st_get_position (add_vertex s (st_get_position s vi) (s.masses.getD vi 0)).1 i =
        st_get_position s i := by
    intro i hi
    show (s.positions ++ [st_get_position s vi]).getD i v3zero = s.positions.getD i v3zero
    exact getD_append_left _ _ _ _ hi
  have hacc1 : (comp.foldl
      (fun (a : Vec3q × List Tri3) t =>
        (a.1 + (pinch_subst vi s.positions.length
          ((add_vertex s (st_get_position s vi) (s.masses.getD vi 0)).1.triangles.getD
            t ⟨0, 0, 0⟩)
          (add_vertex s (st_get_position s vi) (s.masses.getD vi 0)).1).2,
          a.2 ++ [(pinch_subst vi s.positions.length
            ((add_vertex s (st_get_position s vi)
              (s.masses.getD vi 0)).1.triangles.getD t ⟨0, 0, 0⟩)
            (add_vertex s (st_get_position s vi) (s.masses.getD vi 0)).1).1]))
      (v3zero, [])).1 =
      comp.foldl (fun a t => a + pinch_other_sum vi (s.triangles.getD t ⟨0, 0, 0⟩) s)
        v3zero := by
    refine Eq.trans (foldl_pair_fst
      (fun t => (pinch_subst vi s.positions.length
        ((add_vertex s (st_get_position s vi) (s.masses.getD vi 0)).1.triangles.getD
          t ⟨0, 0, 0⟩)
        (add_vertex s (st_get_position s vi) (s.masses.getD vi 0)).1).2)
      (fun t b => b ++ [(pinch_subst vi s.positions.length
        ((add_vertex s (st_get_position s vi) (s.masses.getD vi 0)).1.triangles.getD
          t ⟨0, 0, 0⟩)
        (add_vertex s (st_get_position s vi) (s.masses.getD vi 0)).1).1])
      comp v3zero []) ?_
    apply foldl_add_congr
    intro t ht
    rw [pinch_subst_snd]
    have htri : (add_vertex s (st_get_position s vi) (s.masses.getD vi 0)).1.triangles =
        s.triangles := rfl
    rw [htri]
    exact pinch_other_sum_congr vi _ s _ s.positions.length hpos1 (hcomp t ht).1
      (hcomp t ht).2.1 (hcomp t ht).2.2
  rw [hp, hacc1]
  rfl

theorem tri_ok_mono (s s' : SurfTrack) (t : Nat) (htr : s'.triangles = s.triangles)
    (hlen : s.positions.length ≤ s'.positions.length) (h : tri_ok s t) : tri_ok s' t := by
  unfold tri_ok at h ⊢
  rw [htr]
  exact ⟨Nat.lt_of_lt_of_le h.1 hlen, Nat.lt_of_lt_of_le h.2.1 hlen,
    Nat.lt_of_lt_of_le h.2.2 hlen⟩

theorem pull_apart_loop_pos (dx : ℚ) (vi : Nat) :
    ∀ (comps : List (List Nat)) (s : SurfTrack), st_aligned s →
      vi < s.positions.length →
      (∀ comp ∈ comps, ∀ t ∈ comp, tri_ok s t) →
      ∀ k, k < comps.length →
        (pull_apart_loop dx vi s comps).1.positions.getD (s.positions.length + k) v3zero =
          (1 - dx) • st_get_position s vi + dx • pinch_centroid s vi (comps.getD k []) := by
  intro comps
  induction comps with
  | nil => intro s _ _ _ k hk; exact absurd hk (by simp)
  | cons comp rest ih =>
      intro s ha hvi hcomps k hk
      have hbase := pinch_component_base dx vi s comp ha
      have hcm : ∀ t ∈ comp, tri_ok s t := hcomps comp (List.mem_cons_self comp rest)
      have ha' : st_aligned (pinch_component dx vi s comp).1 := hbase.1
      have hlen' : (pinch_component dx vi s comp).1.positions.length =
          s.positions.length + 1 := hbase.2.1
      have htr' : (pinch_component dx vi s comp).1.triangles = s.triangles :=
        hbase.2.2.2.1
      have hle : s.positions.length ≤ (pinch_component dx vi s comp).1.positions.length := by
        omega
      have hcomps' : ∀ c ∈ rest, ∀ t ∈ c, tri_ok (pinch_component dx vi s comp).1 t :=
        fun c hc t ht =>
          tri_ok_mono s _ t htr' hle (hcomps c (List.mem_cons_of_mem comp hc) t ht)
      rw [pull_apart_loop]
      cases k with
      | zero =>
          have hrest := pull_apart_loop_base dx vi rest (pinch_component dx vi s comp).1 ha'
          have hidx : s.positions.length + 0 < (pinch_component dx vi s comp).1.positions.length := by
            omega
          have := (hrest.2.2.2.2 (s.positions.length + 0) hidx).1
          rw [this]
          rw [show s.positions.length + 0 = s.positions.length from rfl]
          rw [pinch_component_pos dx vi s comp hcm]
          rfl
      | succ k' =>
          have hk' : k' < rest.length := by
            rw [List.length_cons] at hk
            omega
          have := ih (pinch_component dx vi s comp).1 ha'
            (by rw [hlen']; omega) hcomps' k' hk'
          rw [show s.positions.length + (k' + 1) =
            (pinch_component dx vi s comp).1.positions.length + k' from by omega]
          rw [this]
          have hvp : st_get_position (pinch_component dx vi s comp).1 vi =
              st_get_position s vi := (hbase.2.2.2.2 vi hvi).1
          have hcc : pinch_centroid (pinch_component dx vi s comp).1 vi (rest.getD k' []) =
              pinch_centroid s vi (rest.getD k' []) := by
            apply pinch_centroid_congr s _ vi _ s.positions.length htr'
            · intro i hi
              exact (hbase.2.2.2.2 i hi).1
            · intro t ht
              have hmm : rest.getD k' [] ∈ rest := by
                rw [List.getD_eq_getElem?_getD, List.getElem?_eq_getElem hk', Option.getD_some]
                exact List.getElem_mem hk'
              exact hcomps (rest.getD k' []) (List.mem_cons_of_mem comp hmm) t ht
          rw [hvp, hcc]
          rw [show (comp :: rest).getD (k' + 1) [] = rest.getD k' [] from rfl]

theorem add_triangle_fold_keeps (ta : List Tri3) :
    ∀ s : SurfTrack, (ta.foldl (fun acc t => add_triangle acc t) s).positions = s.positions := by
  induction ta with
  | nil => intro s; rfl
  | cons t rest ih => intro s; rw [List.foldl_cons]; exact ih _

theorem remove_triangle_fold_keeps (td : List Nat) :
    ∀ s : SurfTrack,
      (td.foldl (fun acc t => remove_triangle acc t) s).positions = s.positions := by
  induction td with
  | nil => intro s; rfl
  | cons t rest ih => intro s; rw [List.foldl_cons]; exact ih _

/-- Claim C8 (amended): for a vertex whose incident triangles fall into `K ≥ 2`
components, the pincher creates one duplicate per component **except the
last** — `K − 1` new vertices, the original vertex serving the last component —
and, when the collision check passes, each duplicate's position is the
interpolation `(1 − 10ε)·x(v) + 10ε·centroid` toward its component's centroid
with weight `dx = 10 · proximity_epsilon`, and the call returns `true`. -/
theorem pull_apart_vertex_one_duplicate_per_component_except_last
    (eps : ℚ) (cs : Bool) (bp : SurfTrack → Tri3 → List Nat)
    (tt : Tri3 → Tri3 → List Vec3q → Bool) (s : SurfTrack) (vi : Nat)
    (comps : List (List Nat)) (ha : st_aligned s) (hvi : vi < s.positions.length)
    (hcomps : ∀ comp ∈ comps, ∀ t ∈ comp, tri_ok s t)
    (hc : pull_apart_collision_occurs eps cs bp tt s vi comps = false) :
    (pull_apart_vertex eps cs bp tt s vi comps).2 = true ∧
    (pull_apart_prepare eps s vi comps).2.1.length = comps.length - 1 ∧
    (∀ k, k < comps.length - 1 →
      st_get_position (pull_apart_vertex eps cs bp tt s vi comps).1
          (s.positions.length + k) =
        (1 - 10 * eps) • st_get_position s vi +
          (10 * eps) • pinch_centroid s vi (comps.getD k [])) := by
  have hres : pull_apart_vertex eps cs bp tt s vi comps =
      ((pull_apart_prepare eps s vi comps).2.2.2.foldl (fun acc t => remove_triangle acc t)
        ((pull_apart_prepare eps s vi comps).2.2.1.foldl (fun acc t => add_triangle acc t)
          (pull_apart_prepare eps s vi comps).1), true) := by
    unfold pull_apart_vertex
    rw [hc]
    simp
  have hloop := pull_apart_loop_base (10 * eps) vi (comps.take (comps.length - 1)) s ha
  have htklen : (comps.take (comps.length - 1)).length = comps.length - 1 := by
    rw [List.length_take]
    omega
  refine ⟨by rw [hres], ?_, ?_⟩
  · rw [show (pull_apart_prepare eps s vi comps).2.1 =
      (pull_apart_loop (10 * eps) vi s (comps.take (comps.length - 1))).2.1 from rfl]
    rw [hloop.2.2.1, List.length_range', htklen]
  · intro k hk
    have hk' : k < (comps.take (comps.length - 1)).length := by omega
    have hcomps' : ∀ comp ∈ comps.take (comps.length - 1), ∀ t ∈ comp, tri_ok s t :=
      fun comp hcm t ht => hcomps comp (List.mem_of_mem_take hcm) t ht
    have hposval := pull_apart_loop_pos (10 * eps) vi (comps.take (comps.length - 1)) s
      ha hvi hcomps' k hk'
    have hgetD : (comps.take (comps.length - 1)).getD k [] = comps.getD k [] := by
      rw [List.getD_eq_getElem?_getD, List.getD_eq_getElem?_getD, List.getElem?_take,
        if_pos hk]
    rw [hgetD] at hposval
    rw [hres]
    unfold st_get_position
    rw [remove_triangle_fold_keeps, add_triangle_fold_keeps]
    exact hposval

/-- Claim C8 as stated is false on the code: for a vertex whose neighbourhood
splits into two components, the pincher adds only one duplicate vertex (not
one per component), and the original vertex's position is left untouched
(so not every component's copy is moved toward its centroid). -/
theorem pull_apart_vertex_duplicate_count :
    ([[0], [1]] : List (List Nat)).length = 2 ∧
    (pull_apart_prepare 0 pinchSurf 0 [[0], [1]]).2.1.length = 1 ∧
    (pull_apart_vertex 0 false pinchBp pinchTt pinchSurf 0 [[0], [1]]).2 = true ∧
    st_get_position (pull_apart_vertex 0 false pinchBp pinchTt pinchSurf 0 [[0], [1]]).1 0 =
      st_get_position pinchSurf 0 :=
  ⟨rfl, rfl, rfl, rfl⟩

/-- Witness for claim C8's amended form at the concrete two-component mesh. -/
theorem pull_apart_vertex_one_duplicate_per_component_except_last_witness :
    (st_aligned pinchSurf ∧ 0 < pinchSurf.positions.length ∧
      (∀ comp ∈ ([[0], [1]] : List (List Nat)), ∀ t ∈ comp, tri_ok pinchSurf t) ∧
      pull_apart_collision_occurs 0 false pinchBp pinchTt pinchSurf 0 [[0], [1]] = false) ∧
    (pull_apart_vertex 0 false pinchBp pinchTt pinchSurf 0 [[0], [1]]).2 = true ∧
    (pull_apart_prepare 0 pinchSurf 0 [[0], [1]]).2.1.length =
      ([[0], [1]] : List (List Nat)).length - 1 :=
  have ha : st_aligned pinchSurf := ⟨rfl, rfl, rfl⟩
  have hvi : 0 < pinchSurf.positions.length := by decide
  have hcomps : ∀ comp ∈ ([[0], [1]] : List (List Nat)), ∀ t ∈ comp, tri_ok pinchSurf t := by
    decide
  have hc : pull_apart_collision_occurs 0 false pinchBp pinchTt pinchSurf 0 [[0], [1]] =
      false := rfl
  ⟨⟨ha, hvi, hcomps, hc⟩,
    (pull_apart_vertex_one_duplicate_per_component_except_last 0 false pinchBp pinchTt
      pinchSurf 0 [[0], [1]] ha hvi hcomps hc).1,
    (pull_apart_vertex_one_duplicate_per_component_except_last 0 false pinchBp pinchTt
      pinchSurf 0 [[0], [1]] ha hvi hcomps hc).2.1⟩

theorem scan_push_sup (adj : Nat → Nat → Bool) (curr : Nat) (visited : List Nat) :
    ∀ (l acc : List Nat) (y : Nat), y ∈ acc → y ∈ scan_push adj curr visited l acc := by
  intro l
  induction l with
  | nil => intro acc y hy; exact hy
  | cons x rest ih =>
      intro acc y hy
      rw [scan_push, List.foldl_cons]
      apply ih
      by_cases h1 : x = curr
      · simpa [h1] using hy
      · by_cases h2 : adj curr x
        · by_cases h3 : x ∈ acc ∨ x ∈ visited
          · simpa [h1, h2, h3] using hy
          · simp only [h1, h2, h3]
            simp at h3 ⊢
            right
            exact hy
        · simpa [h1, h2] using hy

theorem scan_push_mem (adj : Nat → Nat → Bool) (curr : Nat) (visited : List Nat) :
    ∀ (l acc : List Nat) (y : Nat), y ∈ scan_push adj curr visited l acc →
      y ∈ acc ∨ (adj curr y = true ∧ y ∈ l ∧ y ∉ visited) := by
  intro l
  induction l with
  | nil => intro acc y hy; exact Or.inl hy
  | cons x rest ih =>
      intro acc y hy
      rw [scan_push, List.foldl_cons] at hy
      have := ih _ y hy
      rcases this with hacc | ⟨hadj, hmem, hnv⟩
      · by_cases h1 : x = curr
        · rw [if_pos h1] at hacc; exact Or.inl hacc
        · rw [if_neg h1] at hacc
          by_cases h2 : adj curr x
          · rw [if_pos h2] at hacc
            by_cases h3 : x ∈ acc ∨ x ∈ visited
            · rw [if_pos h3] at hacc; exact Or.inl hacc
            · rw [if_neg h3] at hacc
              rcases List.mem_cons.mp hacc with he | hacc'
              · subst he
                push_neg at h3
                exact Or.inr ⟨h2, List.mem_cons_self _ _, h3.2⟩
              · exact Or.inl hacc'
          · rw [if_neg h2] at hacc; exact Or.inl hacc
      · exact Or.inr ⟨hadj, List.mem_cons_of_mem x hmem, hnv⟩

theorem scan_push_nodup (adj : Nat → Nat → Bool) (curr : Nat) (visited : List Nat) :
    ∀ (l acc : List Nat), acc.Nodup → (scan_push adj curr visited l acc).Nodup := by
  intro l
  induction l with
  | nil => intro acc h; exact h
  | cons x rest ih =>
      intro acc h
      rw [scan_push, List.foldl_cons]
      apply ih
      by_cases h1 : x = curr
      · simpa [h1] using h
      · by_cases h2 : adj curr x
        · by_cases h3 : x ∈ acc ∨ x ∈ visited
          · simpa [h1, h2, h3] using h
          · simp only [h1, h2, h3]
            push_neg at h3
            simp [h2, List.nodup_cons, h3.1, h]
        · simpa [h1, h2] using h

theorem bfs_loop_spec (adj : Nat → Nat → Bool) (S : List Nat) (seed : Nat) :
    ∀ (fuel : Nat) (remaining stack visited : List Nat),
      remaining.length < fuel →
      remaining.Nodup → stack.Nodup →
      (∀ x ∈ stack, x ∈ remaining) →
      (∀ v ∈ visited, v ∉ remaining) →
      (∀ x ∈ remaining, x ∈ S) →
      (∀ x ∈ stack, linkedIn adj S seed x) →
      ∃ delta : List Nat,
        (bfs_loop adj fuel remaining stack visited).2 = visited ++ delta ∧
        remaining.Perm ((bfs_loop adj fuel remaining stack visited).1 ++ delta) ∧
        (∀ x ∈ stack, x ∈ delta) ∧
        (bfs_loop adj fuel remaining stack visited).1.Nodup ∧
        (∀ x ∈ delta, linkedIn adj S seed x) ∧
        (∀ x ∈ (bfs_loop adj fuel remaining stack visited).1, x ∈ remaining) := by
  intro fuel
  induction fuel with
  | zero => intro remaining _ _ hlt; omega
  | succ n ih =>
      intro remaining stack visited hlt hndr hnds hsub hvis hS hlink
      cases stack with
      | nil =>
          refine ⟨[], by simp [bfs_loop], by simp [bfs_loop], by simp, ?_, by simp,
            by simp [bfs_loop]⟩
          simpa [bfs_loop] using hndr
      | cons curr rest =>
          have hcur : curr ∈ remaining := hsub curr (List.mem_cons_self _ _)
          have hcurS : curr ∈ S := hS curr hcur
          have hcurlink : linkedIn adj S seed curr := hlink curr (List.mem_cons_self _ _)
          have hndr' : (remaining.erase curr).Nodup := hndr.erase curr
          have hlen' : (remaining.erase curr).length < n := by
            have hpos : 0 < remaining.length := List.length_pos_of_mem hcur
            rw [List.length_erase_of_mem hcur]
            omega
          have hcurnotrest : curr ∉ rest := (List.nodup_cons.mp hnds).1
          have hndrest : rest.Nodup := (List.nodup_cons.mp hnds).2
          have hrestsub : ∀ x ∈ rest, x ∈ remaining.erase curr := by
            intro x hx
            have hne : x ≠ curr := fun h => hcurnotrest (h ▸ hx)
            exact (List.mem_erase_of_ne hne).mpr (hsub x (List.mem_cons_of_mem _ hx))
          have hstack' : ∀ x ∈ scan_push adj curr (visited ++ [curr]) (remaining.erase curr)
              rest, x ∈ remaining.erase curr := by
            intro x hx
            rcases scan_push_mem adj curr (visited ++ [curr]) (remaining.erase curr) rest x hx
              with h | ⟨_, hm, _⟩
            · exact hrestsub x h
            · exact hm
          have hnds' : (scan_push adj curr (visited ++ [curr]) (remaining.erase curr)
              rest).Nodup := scan_push_nodup adj curr _ _ _ hndrest
          have hvis' : ∀ v ∈ visited ++ [curr], v ∉ remaining.erase curr := by
            intro v hv
            rcases List.mem_append.mp hv with h | h
            · intro hmem
              exact hvis v h (List.mem_of_mem_erase hmem)
            · rw [List.mem_singleton.mp h]
              exact hndr.not_mem_erase
          have hS' : ∀ x ∈ remaining.erase curr, x ∈ S :=
            fun x hx => hS x (List.mem_of_mem_erase hx)
          have hlink' : ∀ x ∈ scan_push adj curr (visited ++ [curr]) (remaining.erase curr)
              rest, linkedIn adj S seed x := by
            intro x hx
            rcases scan_push_mem adj curr (visited ++ [curr]) (remaining.erase curr) rest x hx
              with h | ⟨hadj, hm, _⟩
            · exact hlink x (List.mem_cons_of_mem _ h)
            · exact Relation.ReflTransGen.tail hcurlink
                ⟨Or.inl hadj, hcurS, hS x (List.mem_of_mem_erase hm)⟩
          obtain ⟨delta, hd1, hd2, hd3, hd4, hd5, hd6⟩ := ih (remaining.erase curr)
            (scan_push adj curr (visited ++ [curr]) (remaining.erase curr) rest)
            (visited ++ [curr]) hlen' hndr' hnds' hstack' hvis' hS' hlink'
          rw [bfs_loop]
          refine ⟨curr :: delta, ?_, ?_, ?_, hd4, ?_, ?_⟩
          · rw [hd1, List.append_assoc]
            rfl
          · refine List.Perm.trans (List.perm_cons_erase hcur) ?_
            refine List.Perm.trans (List.Perm.cons curr hd2) ?_
            exact List.perm_middle.symm
          · intro x hx
            rcases List.mem_cons.mp hx with h | h
            · rw [h]; exact List.mem_cons_self _ _
            · exact List.mem_cons_of_mem _
                (hd3 x (scan_push_sup adj curr (visited ++ [curr]) (remaining.erase curr)
                  rest x h))
          · intro x hx
            rcases List.mem_cons.mp hx with h | h
            · rw [h]; exact hcurlink
            · exact hd5 x h
          · intro x hx
            exact List.mem_of_mem_erase (hd6 x hx)

theorem partition_loop_spec (adj : Nat → Nat → Bool) (S : List Nat) :
    ∀ (fuel : Nat) (remaining : List Nat) (acc : List (List Nat)),
      remaining.length < fuel → remaining.Nodup → (∀ x ∈ remaining, x ∈ S) →
      ∃ comps : List (List Nat),
        partition_vertex_neighbourhood_loop adj fuel remaining acc = acc ++ comps ∧
        remaining.Perm comps.flatten ∧
        (∀ c ∈ comps, c ≠ []) ∧
        (∀ c ∈ comps, ∀ a ∈ c, ∀ b ∈ c,
          ∃ seed : Nat, linkedIn adj S seed a ∧ linkedIn adj S seed b) := by
  intro fuel
  induction fuel with
  | zero => intro remaining _ hlt; omega
  | succ n ih =>
      intro remaining acc hlt hnd hS
      cases hlast : remaining.getLast? with
      | none =>
          have hrem : remaining = [] := List.getLast?_eq_none_iff.mp hlast
          refine ⟨[], ?_, by simp [hrem], by simp, by simp⟩
          rw [partition_vertex_neighbourhood_loop, hlast]
          show acc = acc ++ []
          simp
      | some seed =>
          have hseed : seed ∈ remaining := List.mem_of_mem_getLast? hlast
          obtain ⟨delta, hd1, hd2, hd3, hd4, hd5, hd6⟩ :=
            bfs_loop_spec adj S seed (remaining.length + 1) remaining [seed] []
              (by omega) hnd (List.nodup_singleton seed)
              (fun x hx => by rw [List.mem_singleton.mp hx]; exact hseed)
              (by simp) hS
              (fun x hx => by
                rw [List.mem_singleton.mp hx]; exact Relation.ReflTransGen.refl)
          have hdelta_ne : delta ≠ [] := by
            intro h
            exact absurd (hd3 seed (List.mem_singleton.mpr rfl)) (h ▸ List.not_mem_nil seed)
          have hlen2 : (bfs_loop adj (remaining.length + 1) remaining [seed] []).1.length
              < n := by
            have := hd2.length_eq
            rw [List.length_append] at this
            have hdl : 0 < delta.length := List.length_pos.mpr hdelta_ne
            omega
          have hnd2 : (bfs_loop adj (remaining.length + 1) remaining [seed] []).1.Nodup :=
            hd4
          have hS2 : ∀ x ∈ (bfs_loop adj (remaining.length + 1) remaining [seed] []).1,
              x ∈ S := fun x hx => hS x (hd6 x hx)
          obtain ⟨comps', hc1, hc2, hc3, hc4⟩ := ih
            (bfs_loop adj (remaining.length + 1) remaining [seed] []).1
            (acc ++ [(bfs_loop adj (remaining.length + 1) remaining [seed] []).2])
            hlen2 hnd2 hS2
          refine ⟨(bfs_loop adj (remaining.length + 1) remaining [seed] []).2 :: comps',
            ?_, ?_, ?_, ?_⟩
          · rw [partition_vertex_neighbourhood_loop, hlast]
            show partition_vertex_neighbourhood_loop adj n
                (bfs_loop adj (remaining.length + 1) remaining [seed] []).1
                (acc ++ [(bfs_loop adj (remaining.length + 1) remaining [seed] []).2]) =
              acc ++ (bfs_loop adj (remaining.length + 1) remaining [seed] []).2 :: comps'
            rw [hc1, List.append_assoc]
            rfl
          · rw [List.flatten_cons, hd1, List.nil_append]
            refine List.Perm.trans hd2 ?_
            refine List.Perm.trans (List.perm_append_comm) ?_
            exact List.Perm.append_left delta hc2
          · intro c hc
            rcases List.mem_cons.mp hc with h | h
            · rw [h, hd1, List.nil_append]
              exact hdelta_ne
            · exact hc3 c h
          · intro c hc a haa b hbb
            rcases List.mem_cons.mp hc with h | h
            · subst h
              rw [hd1, List.nil_append] at haa hbb
              exact ⟨seed, hd5 a haa, hd5 b hbb⟩
            · exact hc4 c h a haa b hbb

/-- Claim C10: `partition_vertex_neighbourhood` returns a partition of the
vertex's incidence list: the concatenation of the returned components is a
permutation of the incidence list (so each incident triangle lies in exactly
one component, exactly once), every component is non-empty, and any two
triangles of one component are linked by a chain of pairwise-adjacent
triangles all drawn from the incidence list. -/
theorem partition_vertex_neighbourhood_is_partition
    (adj : Nat → Nat → Bool) (incident : List Nat) (hnd : incident.Nodup) :
    incident.Perm (partition_vertex_neighbourhood adj incident).flatten ∧
    (∀ c ∈ partition_vertex_neighbourhood adj incident, c ≠ []) ∧
    (∀ t ∈ incident,
      List.count t (partition_vertex_neighbourhood adj incident).flatten = 1) ∧
    (∀ c ∈ partition_vertex_neighbourhood adj incident, ∀ a ∈ c, ∀ b ∈ c,
      linkedIn adj incident a b) := by
  obtain ⟨comps, hc1, hc2, hc3, hc4⟩ := partition_loop_spec adj incident
    (incident.length + 1) incident [] (by omega) hnd (fun x hx => hx)
  have hpart : partition_vertex_neighbourhood adj incident = comps := by
    rw [partition_vertex_neighbourhood, hc1, List.nil_append]
  rw [hpart]
  have hsymm : Symmetric (fun u w : Nat =>
      (adj u w = true ∨ adj w u = true) ∧ u ∈ incident ∧ w ∈ incident) := by
    intro u w h
    exact ⟨h.1.symm, h.2.2, h.2.1⟩
  refine ⟨hc2, hc3, ?_, ?_⟩
  · intro t ht
    have hmem : t ∈ comps.flatten := hc2.mem_iff.mp ht
    exact List.count_eq_one_of_mem (hc2.nodup hnd) hmem
  · intro c hc a haa b hbb
    obtain ⟨seed, hsa, hsb⟩ := hc4 c hc a haa b hbb
    exact Relation.ReflTransGen.trans
      ((Relation.ReflTransGen.symmetric hsymm) hsa) hsb

/-- Witness for claim C10 on a concrete three-triangle neighbourhood. -/
theorem partition_vertex_neighbourhood_is_partition_witness :
    ([0, 1, 2] : List Nat).Nodup ∧
    ([0, 1, 2] : List Nat).Perm (partition_vertex_neighbourhood adjW [0, 1, 2]).flatten ∧
    (∀ c ∈ partition_vertex_neighbourhood adjW [0, 1, 2], c ≠ []) :=
  ⟨by decide,
    (partition_vertex_neighbourhood_is_partition adjW [0, 1, 2] (by decide)).1,
    (partition_vertex_neighbourhood_is_partition adjW [0, 1, 2] (by decide)).2.1⟩

theorem pcc_body_none {σ : Type} (o : CcdOracles σ) (dt : ℚ) (add : Bool) (surf : σ)
    (c : Vec3st) (ns : List Vec3st) (st : ProcessCollisionStatus)
    (h : o.detect surf c = none) :
    pcc_body o dt add surf c ns st = (surf, ns, st) := by
  simp [pcc_body, h]

theorem pcc_loop_detect_none {σ : Type} (o : CcdOracles σ) (dt : ℚ) (add : Bool)
    (h : ∀ s c, o.detect s c = none) :
    ∀ (fuel : Nat) (surf : σ) (cs ns : List Vec3st) (st : ProcessCollisionStatus) (i : Nat),
      ∃ rest n, pcc_loop o dt add fuel surf cs ns st i = (surf, rest, ns, st, n) := by
  intro fuel
  induction fuel with
  | zero => intro surf cs ns st i; exact ⟨cs, i, rfl⟩
  | succ fuel ih =>
      intro surf cs ns st i
      cases cs with
      | nil => exact ⟨[], i, rfl⟩
      | cons c rest =>
          have hb := pcc_body_none o dt add surf c ns st (h surf c)
          have : pcc_loop o dt add (fuel + 1) surf (c :: rest) ns st i =
              pcc_loop o dt add fuel surf rest ns st (i + 1) := by
            show pcc_loop o dt add fuel
              (pcc_body o dt add surf c ns st).1 rest
              (pcc_body o dt add surf c ns st).2.1
              (pcc_body o dt add surf c ns st).2.2 (i + 1) = _
            rw [hb]
          rw [this]
          exact ih surf rest ns st (i + 1)

theorem process_collision_candidates_detect_none {σ : Type} (o : CcdOracles σ) (dt : ℚ)
    (add : Bool) (h : ∀ s c, o.detect s c = none) (surf : σ) (cs ns : List Vec3st)
    (st : ProcessCollisionStatus) :
    ∃ rest b n, process_collision_candidates o dt add surf cs ns st =
      (surf, rest, ns, ⟨st.collision_found, st.overflow, b⟩, n) := by
  obtain ⟨rest, n, hl⟩ :=
    pcc_loop_detect_none o dt add h (5 * cs.length) surf cs ns st 0
  refine ⟨rest, rest.isEmpty, n, ?_⟩
  unfold process_collision_candidates
  simp only [hl]

theorem dynamic_phase_detect_none {σ : Type} (o : CcdOracles σ) (dt : ℚ) (collect : Bool)
    (h : ∀ s c, o.detect s c = none) (p : PhaseGen σ) :
    ∀ (surf : σ) (ucc : List Vec3st) (st : ProcessCollisionStatus),
      ∃ b, dynamic_phase o dt collect p surf ucc st =
        (surf, ucc, ⟨st.collision_found, st.overflow, b⟩) := by
  obtain ⟨skip, gen, ids⟩ := p
  unfold dynamic_phase
  induction ids with
  | nil =>
      intro surf ucc st
      exact ⟨st.all_candidates_processed, rfl⟩
  | cons j rest ih =>
      intro surf ucc st
      simp only [List.foldl_cons]
      by_cases hs : skip j
      · simp only [hs, if_true]
        exact ih surf ucc st
      · simp only [hs, if_false]
        obtain ⟨r, b, n, hp⟩ :=
          process_collision_candidates_detect_none o dt collect h surf (gen surf j) ucc st
        simp only [hp]
        exact ih surf ucc ⟨st.collision_found, st.overflow, b⟩

/-- Claim C9 (amended): `handle_collisions` is a no-op returning `true` when
the narrow phase reports no collision for any candidate: the single pass then
raises no flag, applies no impulse, and the function returns early with the
surface unchanged.  (The original claim — that a mesh satisfying the static
audit P2 is left unchanged — is refuted by
`handle_collisions_changes_audit_clean_mesh`: P2 constrains only the current
positions, while the pipeline responds to continuous collisions on the way to
the predicted positions.) -/
theorem handle_collisions_noop_when_no_ccd {σ : Type} (o : CcdOracles σ) (dt : ℚ)
    (pv pt pe : PhaseGen σ) (surf : σ) (h : ∀ s c, o.detect s c = none) :
    handle_collisions o dt pv pt pe surf = (surf, true) := by
  obtain ⟨b1, h1⟩ := dynamic_phase_detect_none o dt true h pv surf [] ⟨false, false, false⟩
  obtain ⟨b2, h2⟩ := dynamic_phase_detect_none o dt true h pt surf [] ⟨false, false, b1⟩
  obtain ⟨b3, h3⟩ := dynamic_phase_detect_none o dt true h pe surf [] ⟨false, false, b2⟩
  unfold handle_collisions hc_pass
  simp only [h1, h2, h3, Bool.false_eq_true, if_false, Bool.not_false, if_true]

/-- Witness for the amended claim C9 at concrete inputs. -/
theorem handle_collisions_noop_when_no_ccd_witness :
    handle_collisions noDetectOracles 1 trivPhase trivPhase trivPhase () = ((), true) :=
  handle_collisions_noop_when_no_ccd noDetectOracles 1 trivPhase trivPhase trivPhase ()
    (fun _ _ => rfl)

theorem star_detect : oraclesStar.detect cleanSurf ⟨0, 3, 0⟩ = some collStar := rfl

theorem set_3012 {α : Type} (x0 x1 x2 x3 y0 y1 y2 y3 : α) :
    ((([x0, x1, x2, x3].set 3 y3).set 0 y0).set 1 y1).set 2 y2 = [y0, y1, y2, y3] := rfl

theorem getD4_0 {α : Type} (x0 x1 x2 x3 d : α) : [x0, x1, x2, x3].getD 0 d = x0 := rfl

theorem getD4_1 {α : Type} (x0 x1 x2 x3 d : α) : [x0, x1, x2, x3].getD 1 d = x1 := rfl

theorem getD4_2 {α : Type} (x0 x1 x2 x3 d : α) : [x0, x1, x2, x3].getD 2 d = x2 := rfl

theorem getD4_3 {α : Type} (x0 x1 x2 x3 d : α) : [x0, x1, x2, x3].getD 3 d = x3 := rfl

theorem star_resolve (imp : ℚ) (himp : imp = 2) :
    resolve_collision_impulse magStar 0 cleanSurf collStar imp 1 = cleanSurfAfter := by
  subst himp
  unfold resolve_collision_impulse collStar
  simp only [Bool.false_eq_true, if_false]
  unfold apply_triangle_point_impulse apply_impulse
  simp only [cleanSurf, get_velocity, get_position, getD4_0, getD4_1, getD4_2, getD4_3,
    set_3012, magStar, v3zero, v3_add_def, v3_sub_def, v3_neg_def, v3_smul_def, dot3,
    cleanSurfAfter, Vec3q.mk.injEq, List.cons.injEq, DynSurface.mk.injEq]
  norm_num

theorem star_body3 :
    pcc_body oraclesStar 1 true cleanSurf ⟨0, 3, 0⟩ [] ⟨false, false, true⟩ =
      (cleanSurfAfter, [⟨0, 3, 0⟩], ⟨true, false, true⟩) := by
  unfold pcc_body
  rw [star_detect]
  show (let relvel := collStar.m_relative_displacement / 1
        let impulse := IMPULSE_MULTIPLIER * (0 - relvel)
        let surf' := oraclesStar.resolve cleanSurf collStar impulse 1
        let st' := { (⟨false, false, true⟩ : ProcessCollisionStatus) with collision_found := true }
        let st'' := if ([] : List Vec3st).length > MAX_CANDIDATES then
            { st' with overflow := true } else st'
        let new' := if !st''.overflow && true then
            ([] : List Vec3st) ++ oraclesStar.upd surf' collStar else []
        (surf', new', st'')) = _
  norm_num [MAX_CANDIDATES, oraclesStar]
  exact star_resolve _ (by norm_num [IMPULSE_MULTIPLIER, collStar])

theorem pcc_loop_cons_eq {σ : Type} (o : CcdOracles σ) (dt : ℚ) (add : Bool) (n : Nat)
    (surf : σ) (c : Vec3st) (rest ns : List Vec3st) (st : ProcessCollisionStatus) (i : Nat) :
    pcc_loop o dt add (n + 1) surf (c :: rest) ns st i =
      pcc_loop o dt add n (pcc_body o dt add surf c ns st).1 rest
        (pcc_body o dt add surf c ns st).2.1 (pcc_body o dt add surf c ns st).2.2 (i + 1) := rfl

theorem pcc_loop_nil_eq {σ : Type} (o : CcdOracles σ) (dt : ℚ) (add : Bool) (n : Nat)
    (surf : σ) (ns : List Vec3st) (st : ProcessCollisionStatus) (i : Nat) :
    pcc_loop o dt add (n + 1) surf [] ns st i = (surf, [], ns, st, i) := rfl

theorem star_body0 :
    pcc_body oraclesStar 1 true cleanSurf ⟨0, 0, 0⟩ [] ⟨false, false, true⟩ =
      (cleanSurf, [], ⟨false, false, true⟩) :=
  pcc_body_none oraclesStar 1 true cleanSurf ⟨0, 0, 0⟩ [] ⟨false, false, true⟩ rfl

theorem star_body1 :
    pcc_body oraclesStar 1 true cleanSurf ⟨0, 1, 0⟩ [] ⟨false, false, true⟩ =
      (cleanSurf, [], ⟨false, false, true⟩) :=
  pcc_body_none oraclesStar 1 true cleanSurf ⟨0, 1, 0⟩ [] ⟨false, false, true⟩ rfl

theorem star_body2 :
    pcc_body oraclesStar 1 true cleanSurf ⟨0, 2, 0⟩ [] ⟨false, false, true⟩ =
      (cleanSurf, [], ⟨false, false, true⟩) :=
  pcc_body_none oraclesStar 1 true cleanSurf ⟨0, 2, 0⟩ [] ⟨false, false, true⟩ rfl

theorem star_phase2 :
    process_collision_candidates oraclesStar 1 true cleanSurf
      [⟨0, 0, 0⟩, ⟨0, 1, 0⟩, ⟨0, 2, 0⟩, ⟨0, 3, 0⟩] [] ⟨false, false, true⟩ =
      (cleanSurfAfter, [], [⟨0, 3, 0⟩], ⟨true, false, true⟩, 4) := by
  have hloop : pcc_loop oraclesStar 1 true
      (5 * ([⟨0, 0, 0⟩, ⟨0, 1, 0⟩, ⟨0, 2, 0⟩, ⟨0, 3, 0⟩] : List Vec3st).length) cleanSurf
      [⟨0, 0, 0⟩, ⟨0, 1, 0⟩, ⟨0, 2, 0⟩, ⟨0, 3, 0⟩] [] ⟨false, false, true⟩ 0 =
      (cleanSurfAfter, [], [⟨0, 3, 0⟩], ⟨true, false, true⟩, 4) := by
    rw [show (5 * ([⟨0, 0, 0⟩, ⟨0, 1, 0⟩, ⟨0, 2, 0⟩, ⟨0, 3, 0⟩] : List Vec3st).length)
      = 19 + 1 from rfl, pcc_loop_cons_eq]
    simp only [star_body0]
    rw [show (19 : Nat) = 18 + 1 from rfl, pcc_loop_cons_eq]
    simp only [star_body1]
    rw [show (18 : Nat) = 17 + 1 from rfl, pcc_loop_cons_eq]
    simp only [star_body2]
    rw [show (17 : Nat) = 16 + 1 from rfl, pcc_loop_cons_eq]
    simp only [star_body3]
    rw [show (16 : Nat) = 15 + 1 from rfl, pcc_loop_nil_eq]
  unfold process_collision_candidates
  simp only [hloop]
  rfl

theorem star_dyn1 :
    dynamic_phase oraclesStar 1 true pvStar cleanSurf [] ⟨false, false, false⟩ =
      (cleanSurf, [], ⟨false, false, true⟩) := rfl

theorem star_dyn2 :
    dynamic_phase oraclesStar 1 true ptStar cleanSurf [] ⟨false, false, true⟩ =
      (cleanSurfAfter, [⟨0, 3, 0⟩], ⟨true, false, true⟩) := by
  simp only [dynamic_phase, ptStar, List.foldl_cons, List.foldl_nil, Bool.false_eq_true,
    if_false, star_phase2]

theorem star_dyn3 :
    dynamic_phase oraclesStar 1 true peStar cleanSurfAfter [⟨0, 3, 0⟩] ⟨true, false, true⟩ =
      (cleanSurfAfter, [⟨0, 3, 0⟩], ⟨true, false, true⟩) := rfl

theorem star_wind :
    hc_wind oraclesStar 1 cleanSurfAfter [⟨0, 3, 0⟩] =
      (cleanSurfAfter, [], ⟨false, false, true⟩, 1) := by
  have hsu : sort_unique [⟨0, 3, 0⟩] = [⟨0, 3, 0⟩] := by
    simp [sort_unique, unique_consecutive]
  unfold hc_wind
  rw [hsu]
  rfl

theorem star_main :
    handle_collisions oraclesStar 1 pvStar ptStar peStar cleanSurf =
      (cleanSurfAfter, true) := by
  unfold handle_collisions hc_pass
  simp only [star_dyn1, star_dyn2, star_dyn3, star_wind, Bool.false_eq_true, if_false,
    Bool.not_true, Bool.not_false, if_true, Bool.and_self]

/-- Claim C9 as stated is false on the code: the counterexample mesh — one
static triangle in the plane `z = 0` plus a free vertex falling through it —
passes the static audit (P2 reports no intersections, all edge–triangle pairs
being incident), yet `handle_collisions` applies an impulse: it changes the
velocities and the predicted positions, and still returns `true`.  The
barycentric narrow-phase conjunct shows the counterexample is not an artifact
of the CCD oracle: the point really does cross the triangle en route to its
predicted position. -/
theorem handle_collisions_changes_audit_clean_mesh :
    get_intersections cleanTris cleanEdges (fun _ => [0, 1, 2]) cleanSurf false false = [] ∧
    point_triangle_collision_spec ⟨1, 1, 1⟩ ⟨1, 1, -1⟩ ⟨1, 1, 0⟩ ⟨1, 1, 0⟩
      ⟨5, 1, 0⟩ ⟨5, 1, 0⟩ ⟨1, 5, 0⟩ ⟨1, 5, 0⟩ ∧
    (handle_collisions oraclesStar 1 pvStar ptStar peStar cleanSurf).2 = true ∧
    (handle_collisions oraclesStar 1 pvStar ptStar peStar cleanSurf).1.velocities ≠
      cleanSurf.velocities ∧
    (handle_collisions oraclesStar 1 pvStar ptStar peStar cleanSurf).1.newpositions ≠
      cleanSurf.newpositions := by
  refine ⟨rfl, ?_, ?_, ?_, ?_⟩
  · exact ⟨1/2, by norm_num, by norm_num, 1, 0, 0, by norm_num, le_refl 0, le_refl 0,
      by norm_num, by norm_num [v3_smul_def, v3_add_def, Vec3q.mk.injEq]⟩
  · rw [star_main]
  · rw [star_main]
    norm_num [cleanSurfAfter, cleanSurf, v3zero, Vec3q.mk.injEq, List.cons.injEq]
  · rw [star_main]
    norm_num [cleanSurfAfter, cleanSurf, v3zero, Vec3q.mk.injEq, List.cons.injEq]
